import Mathlib

/-!
Verification of the `gammapy/analysis/config.py` configuration module.

The module defines a tree of validated configuration records (pydantic
models), YAML (de)serialization, and a deep-merge `update` operation:

    upd = deep_update(self.dict(exclude_defaults=True),
                      config.dict(exclude_defaults=True))
    return AnalysisConfig(**upd)

We embed the data model shallowly:

* YAML documents (after the collaborator parse/dump pair, which the spec
  assumes to be mutually inverse) are `YamlValue` trees.
* Validated scalar types (`AngleType`, `EnergyType`, `TimeType`) are kept
  in their canonical textual form `"<number> <unit>"`, split into the
  number and unit parts.  The spec treats these as opaque validated
  scalars with a canonical textual representation; the floating-point and
  unit-conversion arithmetic of the astropy collaborator is out of scope,
  so values are compared in canonical form.
* Each pydantic model becomes a structure with the source defaults, a
  `fromDict` constructor (validation: unknown keys rejected, declared
  fields validated, absent fields defaulted), a `toPairs/toDict`
  serializer (the `json()` path with the custom scalar encoders), and a
  `dictND` export mirroring `dict(exclude_defaults=True)` (a field is
  exported iff its value differs from its schema default, recursively).
* `deepUpdate` mirrors `pydantic.utils.deep_update` on key/value lists
  with python-dict semantics (existing keys updated in place, new keys
  appended, dict-valued entries merged recursively).
-/

/-- A YAML document after parsing: null, bool, int, string, sequence or
mapping.  Mappings are association lists in insertion order, as python
dicts are. -/
inductive YamlValue where
  | null
  | bool (b : Bool)
  | int (n : Int)
  | str (s : String)
  | list (xs : List YamlValue)
  | map (kvs : List (String × YamlValue))

/-- The space character, written via its code point. -/
def spaceChar : Char := Char.ofNat 32

/-- Split a character list on spaces (the shape of the `<number> <unit>`
scalar grammar). -/
def splitSp : List Char → List (List Char)
  | [] => [[]]
  | c :: rest =>
    match splitSp rest with
    | [] => [[]]
    | w :: ws => if c = spaceChar then [] :: w :: ws else (c :: w) :: ws

/-- No character of the list is a space. -/
def noSpace (l : List Char) : Bool := l.all (fun c => decide (c ≠ spaceChar))

/-- ASCII digit. -/
def isDigitCh (c : Char) : Bool := 48 ≤ c.toNat && c.toNat ≤ 57

/-- Characters that can occur in a decimal/scientific number literal:
digits, dot, minus, plus, e, E. -/
def isNumCh (c : Char) : Bool :=
  isDigitCh c || c.toNat = 46 || c.toNat = 45 || c.toNat = 43 || c.toNat = 101 || c.toNat = 69

/-- Abstraction of the collaborator's float grammar: a nonempty word of
number characters containing at least one digit.  (The numeric value
itself is out of scope; scalars are compared in canonical textual form.) -/
def wellFormedNum (l : List Char) : Bool := !l.isEmpty && l.all isNumCh && l.any isDigitCh

/-- Recognized angular units (the astropy `Angle` collaborator accepts an
angular unit after the number). -/
def angleUnits : List String := ["deg", "arcmin", "arcsec", "rad"]

/-- Recognized units of physical type "energy" (the `EnergyType` validator
requires `v.unit.physical_type == "energy"`). -/
def energyUnits : List String := ["TeV", "GeV", "MeV", "keV", "eV", "erg", "J"]

/-- The unit word is one of the given unit names. -/
def unitOk (u : List Char) (units : List String) : Bool :=
  units.any (fun s => decide (s.data = u))

/-- An angle value in canonical form: number text and unit text, rendered
as `"<value> <unit>"` by the custom json encoder. -/
structure AngleType where
  value : String
  unit : String
deriving DecidableEq, Repr

/-- Canonical-form invariant for an angle scalar (what the astropy parse
produces). -/
def AngleType.Wf (a : AngleType) : Bool :=
  wellFormedNum a.value.data && unitOk a.unit.data angleUnits

/-- json encoder `Angle: lambda v: f"{v.value} {v.unit}"`. -/
def AngleType.encode (a : AngleType) : YamlValue := .str (a.value ++ " " ++ a.unit)

/-- `AngleType.validate`: parse the `<number> <unit>` grammar. -/
def AngleType.validate : YamlValue → Except String AngleType
  | .str s =>
    match splitSp s.data with
    | [v, u] =>
      if wellFormedNum v && unitOk u angleUnits then .ok ⟨⟨v⟩, ⟨u⟩⟩
      else .error "invalid angle"
    | _ => .error "invalid angle"
  | _ => .error "invalid angle"

/-- An energy quantity in canonical form. -/
structure EnergyType where
  value : String
  unit : String
deriving DecidableEq, Repr

/-- Canonical-form invariant for an energy scalar. -/
def EnergyType.Wf (a : EnergyType) : Bool :=
  wellFormedNum a.value.data && unitOk a.unit.data energyUnits

/-- json encoder `Quantity: lambda v: f"{v.value} {v.unit}"`. -/
def EnergyType.encode (a : EnergyType) : YamlValue := .str (a.value ++ " " ++ a.unit)

/-- `EnergyType.validate`: parse as a quantity, then require physical type
"energy" (here: an energy unit). -/
def EnergyType.validate : YamlValue → Except String EnergyType
  | .str s =>
    match splitSp s.data with
    | [v, u] =>
      if wellFormedNum v && unitOk u energyUnits then .ok ⟨⟨v⟩, ⟨u⟩⟩
      else .error "Invalid unit for energy"
    | _ => .error "Invalid unit for energy"
  | _ => .error "Invalid unit for energy"

/-- An absolute time in its canonical textual form (`Time(v)` accepts any
recognized time string; json encoder `Time: lambda v: f"{v.value}"`). -/
structure TimeType where
  value : String
deriving DecidableEq, Repr

/-- json encoder for `Time`. -/
def TimeType.encode (t : TimeType) : YamlValue := .str t.value

/-- `TimeType.validate`. -/
def TimeType.validate : YamlValue → Except String TimeType
  | .str s => .ok ⟨s⟩
  | _ => .error "invalid time"

/-- `ReductionTypeEnum`: spectrum = "1d", cube = "3d". -/
inductive ReductionTypeEnum where
  | spectrum
  | cube
deriving DecidableEq, Repr

/-- The declared string literal of the enum member. -/
def ReductionTypeEnum.val : ReductionTypeEnum → String
  | .spectrum => "1d"
  | .cube => "3d"

/-- Enum member serialization (str-enum json value). -/
def ReductionTypeEnum.encode (e : ReductionTypeEnum) : YamlValue := .str e.val

/-- Enum validation: only the declared literal set is accepted. -/
def ReductionTypeEnum.validate : YamlValue → Except String ReductionTypeEnum
  | .str s =>
    if s = "1d" then .ok .spectrum
    else if s = "3d" then .ok .cube
    else .error "value is not a valid enumeration member of ReductionTypeEnum"
  | _ => .error "value is not a valid enumeration member of ReductionTypeEnum"

/-- `FrameEnum`: icrs, galactic. -/
inductive FrameEnum where
  | icrs
  | galactic
deriving DecidableEq, Repr

/-- The declared string literal of the enum member. -/
def FrameEnum.val : FrameEnum → String
  | .icrs => "icrs"
  | .galactic => "galactic"

/-- Enum member serialization. -/
def FrameEnum.encode (e : FrameEnum) : YamlValue := .str e.val

/-- Enum validation. -/
def FrameEnum.validate : YamlValue → Except String FrameEnum
  | .str s =>
    if s = "icrs" then .ok .icrs
    else if s = "galactic" then .ok .galactic
    else .error "value is not a valid enumeration member of FrameEnum"
  | _ => .error "value is not a valid enumeration member of FrameEnum"

/-- `BackgroundMethodEnum`: reflected. -/
inductive BackgroundMethodEnum where
  | reflected
deriving DecidableEq, Repr

/-- The declared string literal of the enum member. -/
def BackgroundMethodEnum.val : BackgroundMethodEnum → String
  | .reflected => "reflected"

/-- Enum member serialization. -/
def BackgroundMethodEnum.encode (e : BackgroundMethodEnum) : YamlValue := .str e.val

/-- Enum validation. -/
def BackgroundMethodEnum.validate : YamlValue → Except String BackgroundMethodEnum
  | .str s =>
    if s = "reflected" then .ok .reflected
    else .error "value is not a valid enumeration member of BackgroundMethodEnum"
  | _ => .error "value is not a valid enumeration member of BackgroundMethodEnum"

/-- `MapSelectionEnum`: counts, exposure, background, psf, edisp. -/
inductive MapSelectionEnum where
  | counts
  | exposure
  | background
  | psf
  | edisp
deriving DecidableEq, Repr

/-- The declared string literal of the enum member. -/
def MapSelectionEnum.val : MapSelectionEnum → String
  | .counts => "counts"
  | .exposure => "exposure"
  | .background => "background"
  | .psf => "psf"
  | .edisp => "edisp"

/-- Enum member serialization. -/
def MapSelectionEnum.encode (e : MapSelectionEnum) : YamlValue := .str e.val

/-- Enum validation. -/
def MapSelectionEnum.validate : YamlValue → Except String MapSelectionEnum
  | .str s =>
    if s = "counts" then .ok .counts
    else if s = "exposure" then .ok .exposure
    else if s = "background" then .ok .background
    else if s = "psf" then .ok .psf
    else if s = "edisp" then .ok .edisp
    else .error "value is not a valid enumeration member of MapSelectionEnum"
  | _ => .error "value is not a valid enumeration member of MapSelectionEnum"

/-- Modelled from the spec: the "default selection set" supplied by the
map-data-reduction component (`MapDatasetMaker.available_selection`, whose
source is outside this repository slice) and used as the schema default of
the `map_selection` field; the spec's map-selection literal set is counts,
exposure, background, psf, edisp. -/
def availableSelection : List MapSelectionEnum :=
  [.counts, .exposure, .background, .psf, .edisp]

/-- Encoder for plain strings (also paths, which serialize as their text). -/
def encodeStr (s : String) : YamlValue := .str s

/-- Validator for plain string fields. -/
def validateStr : YamlValue → Except String String
  | .str s => .ok s
  | _ => .error "str type expected"

/-- Encoder for booleans. -/
def encodeBool (b : Bool) : YamlValue := .bool b

/-- Validator for boolean fields. -/
def validateBool : YamlValue → Except String Bool
  | .bool b => .ok b
  | _ => .error "value could not be parsed to a boolean"

/-- Encoder for integers. -/
def encodeInt (n : Int) : YamlValue := .int n

/-- Validator for integer fields. -/
def validateInt : YamlValue → Except String Int
  | .int n => .ok n
  | _ => .error "value is not a valid integer"

/-- Encoder for optional fields: `None` serializes as null. -/
def encodeOpt {α : Type} (enc : α → YamlValue) : Option α → YamlValue
  | none => .null
  | some a => enc a

/-- Validator for optional fields: a field whose default is `None` is
optional in pydantic, and null is accepted without running the inner
validator. -/
def validateOpt {α : Type} (val : YamlValue → Except String α) :
    YamlValue → Except String (Option α)
  | .null => .ok none
  | v => (val v).map some

/-- Encoder for list fields. -/
def encodeList {α : Type} (enc : α → YamlValue) (xs : List α) : YamlValue :=
  .list (xs.map enc)

/-- Validator for list fields: validate every element. -/
def validateList {α : Type} (val : YamlValue → Except String α) :
    YamlValue → Except String (List α)
  | .list xs => xs.mapM val
  | _ => .error "value is not a valid list"

/-- First-match lookup in a mapping (python dict access). -/
def lookupKey : List (String × YamlValue) → String → Option YamlValue
  | [], _ => none
  | (k2, v) :: rest, k => if k2 = k then some v else lookupKey rest k

/-- Python dict assignment: update an existing key in place, else append. -/
def setKey : List (String × YamlValue) → String → YamlValue → List (String × YamlValue)
  | [], k, v => [(k, v)]
  | (k2, v2) :: rest, k, v =>
    if k2 = k then (k, v) :: rest else (k2, v2) :: setKey rest k v

mutual

/-- `pydantic.utils.deep_update`: overlay the second mapping onto the
first; when both hold a mapping under the same key, merge recursively,
otherwise the second mapping's entry replaces wholesale.  Existing keys
keep their position, new keys are appended (python dict semantics). -/
def deepUpdate : List (String × YamlValue) → List (String × YamlValue) → List (String × YamlValue)
  | acc, [] => acc
  | acc, (k, v) :: rest => deepUpdate (setKey acc k (mergeVal (lookupKey acc k) v)) rest

/-- The value `deep_update` assigns for one override entry, given what the
accumulated mapping currently holds under that key: a recursive merge when
both sides are mappings (`k in updated and isinstance(updated[k], dict)
and isinstance(v, dict)`), else the override value itself. -/
def mergeVal : Option YamlValue → YamlValue → YamlValue
  | some (.map s1), .map s2 => .map (deepUpdate s1 s2)
  | _, v => v

end

/-- The keys of a mapping are pairwise distinct (python dicts). -/
def keyNodup (m : List (String × YamlValue)) : Prop :=
  (m.map (fun p => p.1)).Nodup

/-- All keys of the mapping are declared schema fields
(`Config.extra = "forbid"`). -/
def keysAllowed (m : List (String × YamlValue)) (ks : List String) : Bool :=
  m.all (fun p => decide (p.1 ∈ ks))

/-- pydantic field extraction: absent fields take the declared default,
present fields are coerced through the field validator. -/
def getField {α : Type} (kvs : List (String × YamlValue)) (k : String) (d : α)
    (val : YamlValue → Except String α) : Except String α :=
  match lookupKey kvs k with
  | none => .ok d
  | some v => val v

/-- Conditional export of one field for `dict(exclude_defaults=True)`: the
field appears iff its value differs from its schema default. -/
def ndField {α : Type} [DecidableEq α] (k : String) (cur defv : α) (enc : α → YamlValue) :
    List (String × YamlValue) :=
  if cur = defv then [] else [(k, enc cur)]

/-- Well-formedness of an optional scalar: trivial on `None`. -/
def optWf {α : Type} (wf : α → Bool) : Option α → Bool
  | none => true
  | some a => wf a

/-- `SkyCoordConfig(frame=None, lon=None, lat=None)`. -/
structure SkyCoordConfig where
  frame : Option FrameEnum := none
  lon : Option AngleType := none
  lat : Option AngleType := none
deriving DecidableEq, Repr

/-- Declared field names of `SkyCoordConfig`. -/
def SkyCoordConfig.keys : List String := ["frame", "lon", "lat"]

/-- Construct a `SkyCoordConfig` from a mapping (pydantic validation). -/
def SkyCoordConfig.fromDict : YamlValue → Except String SkyCoordConfig
  | .map kvs =>
    if keysAllowed kvs SkyCoordConfig.keys then do
      let frame ← getField kvs "frame" none (validateOpt FrameEnum.validate)
      let lon ← getField kvs "lon" none (validateOpt AngleType.validate)
      let lat ← getField kvs "lat" none (validateOpt AngleType.validate)
      .ok { frame, lon, lat }
    else .error "extra fields not permitted"
  | _ => .error "value is not a valid dict"

/-- Full serialization of all fields, in declaration order. -/
def SkyCoordConfig.toPairs (c : SkyCoordConfig) : List (String × YamlValue) :=
  [("frame", encodeOpt FrameEnum.encode c.frame),
   ("lon", encodeOpt AngleType.encode c.lon),
   ("lat", encodeOpt AngleType.encode c.lat)]

/-- Full serialization as a mapping. -/
def SkyCoordConfig.toDict (c : SkyCoordConfig) : YamlValue := .map c.toPairs

/-- `dict(exclude_defaults=True)`. -/
def SkyCoordConfig.dictND (c : SkyCoordConfig) : List (String × YamlValue) :=
  ndField "frame" c.frame none (encodeOpt FrameEnum.encode) ++
  ndField "lon" c.lon none (encodeOpt AngleType.encode) ++
  ndField "lat" c.lat none (encodeOpt AngleType.encode)

/-- All scalar fields are in canonical form. -/
def SkyCoordConfig.Wf (c : SkyCoordConfig) : Bool :=
  optWf AngleType.Wf c.lon && optWf AngleType.Wf c.lat

/-- The merge relation the spec describes for `update`: every override
field that differs from its schema default overlays the base field
(recursively for nested records); fields left at their default keep the
base value. -/
def SkyCoordConfig.specMerge (b o : SkyCoordConfig) : SkyCoordConfig where
  frame := if o.frame = none then b.frame else o.frame
  lon := if o.lon = none then b.lon else o.lon
  lat := if o.lat = none then b.lat else o.lat

/-- `SpatialCircleConfig(frame=None, lon=None, lat=None, radius=None)`. -/
structure SpatialCircleConfig where
  frame : Option FrameEnum := none
  lon : Option AngleType := none
  lat : Option AngleType := none
  radius : Option AngleType := none
deriving DecidableEq, Repr

/-- Declared field names of `SpatialCircleConfig`. -/
def SpatialCircleConfig.keys : List String := ["frame", "lon", "lat", "radius"]

/-- Construct a `SpatialCircleConfig` from a mapping. -/
def SpatialCircleConfig.fromDict : YamlValue → Except String SpatialCircleConfig
  | .map kvs =>
    if keysAllowed kvs SpatialCircleConfig.keys then do
      let frame ← getField kvs "frame" none (validateOpt FrameEnum.validate)
      let lon ← getField kvs "lon" none (validateOpt AngleType.validate)
      let lat ← getField kvs "lat" none (validateOpt AngleType.validate)
      let radius ← getField kvs "radius" none (validateOpt AngleType.validate)
      .ok { frame, lon, lat, radius }
    else .error "extra fields not permitted"
  | _ => .error "value is not a valid dict"

/-- Full serialization of all fields, in declaration order. -/
def SpatialCircleConfig.toPairs (c : SpatialCircleConfig) : List (String × YamlValue) :=
  [("frame", encodeOpt FrameEnum.encode c.frame),
   ("lon", encodeOpt AngleType.encode c.lon),
   ("lat", encodeOpt AngleType.encode c.lat),
   ("radius", encodeOpt AngleType.encode c.radius)]

/-- Full serialization as a mapping. -/
def SpatialCircleConfig.toDict (c : SpatialCircleConfig) : YamlValue := .map c.toPairs

/-- `dict(exclude_defaults=True)`. -/
def SpatialCircleConfig.dictND (c : SpatialCircleConfig) : List (String × YamlValue) :=
  ndField "frame" c.frame none (encodeOpt FrameEnum.encode) ++
  ndField "lon" c.lon none (encodeOpt AngleType.encode) ++
  ndField "lat" c.lat none (encodeOpt AngleType.encode) ++
  ndField "radius" c.radius none (encodeOpt AngleType.encode)

/-- All scalar fields are in canonical form. -/
def SpatialCircleConfig.Wf (c : SpatialCircleConfig) : Bool :=
  optWf AngleType.Wf c.lon && optWf AngleType.Wf c.lat && optWf AngleType.Wf c.radius

/-- Field-wise overlay of explicitly-set override fields. -/
def SpatialCircleConfig.specMerge (b o : SpatialCircleConfig) : SpatialCircleConfig where
  frame := if o.frame = none then b.frame else o.frame
  lon := if o.lon = none then b.lon else o.lon
  lat := if o.lat = none then b.lat else o.lat
  radius := if o.radius = none then b.radius else o.radius

/-- `EnergyAxisConfig(min="0.1 TeV", max="10 TeV", nbins=30)`. -/
structure EnergyAxisConfig where
  min : EnergyType := ⟨"0.1", "TeV"⟩
  max : EnergyType := ⟨"10", "TeV"⟩
  nbins : Int := 30
deriving DecidableEq, Repr

/-- Declared field names of `EnergyAxisConfig`. -/
def EnergyAxisConfig.keys : List String := ["min", "max", "nbins"]

/-- Construct an `EnergyAxisConfig` from a mapping. -/
def EnergyAxisConfig.fromDict : YamlValue → Except String EnergyAxisConfig
  | .map kvs =>
    if keysAllowed kvs EnergyAxisConfig.keys then do
      let min ← getField kvs "min" ⟨"0.1", "TeV"⟩ EnergyType.validate
      let max ← getField kvs "max" ⟨"10", "TeV"⟩ EnergyType.validate
      let nbins ← getField kvs "nbins" 30 validateInt
      .ok { min, max, nbins }
    else .error "extra fields not permitted"
  | _ => .error "value is not a valid dict"

/-- Full serialization of all fields, in declaration order. -/
def EnergyAxisConfig.toPairs (c : EnergyAxisConfig) : List (String × YamlValue) :=
  [("min", EnergyType.encode c.min),
   ("max", EnergyType.encode c.max),
   ("nbins", encodeInt c.nbins)]

/-- Full serialization as a mapping. -/
def EnergyAxisConfig.toDict (c : EnergyAxisConfig) : YamlValue := .map c.toPairs

/-- `dict(exclude_defaults=True)`. -/
def EnergyAxisConfig.dictND (c : EnergyAxisConfig) : List (String × YamlValue) :=
  ndField "min" c.min ⟨"0.1", "TeV"⟩ EnergyType.encode ++
  ndField "max" c.max ⟨"10", "TeV"⟩ EnergyType.encode ++
  ndField "nbins" c.nbins 30 encodeInt

/-- All scalar fields are in canonical form. -/
def EnergyAxisConfig.Wf (c : EnergyAxisConfig) : Bool :=
  EnergyType.Wf c.min && EnergyType.Wf c.max

/-- Field-wise overlay of explicitly-set override fields. -/
def EnergyAxisConfig.specMerge (b o : EnergyAxisConfig) : EnergyAxisConfig where
  min := if o.min = ⟨"0.1", "TeV"⟩ then b.min else o.min
  max := if o.max = ⟨"10", "TeV"⟩ then b.max else o.max
  nbins := if o.nbins = 30 then b.nbins else o.nbins

/-- `EnergyRangeConfig(min="0.1 TeV", max="10 TeV")`. -/
structure EnergyRangeConfig where
  min : EnergyType := ⟨"0.1", "TeV"⟩
  max : EnergyType := ⟨"10", "TeV"⟩
deriving DecidableEq, Repr

/-- Declared field names of `EnergyRangeConfig`. -/
def EnergyRangeConfig.keys : List String := ["min", "max"]

/-- Construct an `EnergyRangeConfig` from a mapping. -/
def EnergyRangeConfig.fromDict : YamlValue → Except String EnergyRangeConfig
  | .map kvs =>
    if keysAllowed kvs EnergyRangeConfig.keys then do
      let min ← getField kvs "min" ⟨"0.1", "TeV"⟩ EnergyType.validate
      let max ← getField kvs "max" ⟨"10", "TeV"⟩ EnergyType.validate
      .ok { min, max }
    else .error "extra fields not permitted"
  | _ => .error "value is not a valid dict"

/-- Full serialization of all fields, in declaration order. -/
def EnergyRangeConfig.toPairs (c : EnergyRangeConfig) : List (String × YamlValue) :=
  [("min", EnergyType.encode c.min),
   ("max", EnergyType.encode c.max)]

/-- Full serialization as a mapping. -/
def EnergyRangeConfig.toDict (c : EnergyRangeConfig) : YamlValue := .map c.toPairs

/-- `dict(exclude_defaults=True)`. -/
def EnergyRangeConfig.dictND (c : EnergyRangeConfig) : List (String × YamlValue) :=
  ndField "min" c.min ⟨"0.1", "TeV"⟩ EnergyType.encode ++
  ndField "max" c.max ⟨"10", "TeV"⟩ EnergyType.encode

/-- All scalar fields are in canonical form. -/
def EnergyRangeConfig.Wf (c : EnergyRangeConfig) : Bool :=
  EnergyType.Wf c.min && EnergyType.Wf c.max

/-- Field-wise overlay of explicitly-set override fields. -/
def EnergyRangeConfig.specMerge (b o : EnergyRangeConfig) : EnergyRangeConfig where
  min := if o.min = ⟨"0.1", "TeV"⟩ then b.min else o.min
  max := if o.max = ⟨"10", "TeV"⟩ then b.max else o.max

/-- `TimeRangeConfig(start=None, stop=None)`. -/
structure TimeRangeConfig where
  start : Option TimeType := none
  stop : Option TimeType := none
deriving DecidableEq, Repr

/-- Declared field names of `TimeRangeConfig`. -/
def TimeRangeConfig.keys : List String := ["start", "stop"]

/-- Construct a `TimeRangeConfig` from a mapping. -/
def TimeRangeConfig.fromDict : YamlValue → Except String TimeRangeConfig
  | .map kvs =>
    if keysAllowed kvs TimeRangeConfig.keys then do
      let start ← getField kvs "start" none (validateOpt TimeType.validate)
      let stop ← getField kvs "stop" none (validateOpt TimeType.validate)
      .ok { start, stop }
    else .error "extra fields not permitted"
  | _ => .error "value is not a valid dict"

/-- Full serialization of all fields, in declaration order. -/
def TimeRangeConfig.toPairs (c : TimeRangeConfig) : List (String × YamlValue) :=
  [("start", encodeOpt TimeType.encode c.start),
   ("stop", encodeOpt TimeType.encode c.stop)]

/-- Full serialization as a mapping. -/
def TimeRangeConfig.toDict (c : TimeRangeConfig) : YamlValue := .map c.toPairs

/-- `dict(exclude_defaults=True)`. -/
def TimeRangeConfig.dictND (c : TimeRangeConfig) : List (String × YamlValue) :=
  ndField "start" c.start none (encodeOpt TimeType.encode) ++
  ndField "stop" c.stop none (encodeOpt TimeType.encode)

/-- All scalar fields are in canonical form (times carry no invariant). -/
def TimeRangeConfig.Wf (_c : TimeRangeConfig) : Bool := true

/-- Field-wise overlay of explicitly-set override fields. -/
def TimeRangeConfig.specMerge (b o : TimeRangeConfig) : TimeRangeConfig where
  start := if o.start = none then b.start else o.start
  stop := if o.stop = none then b.stop else o.stop

/-- `FovConfig(width="5 deg", height="5 deg")`. -/
structure FovConfig where
  width : AngleType := ⟨"5", "deg"⟩
  height : AngleType := ⟨"5", "deg"⟩
deriving DecidableEq, Repr

/-- Declared field names of `FovConfig`. -/
def FovConfig.keys : List String := ["width", "height"]

/-- Construct a `FovConfig` from a mapping. -/
def FovConfig.fromDict : YamlValue → Except String FovConfig
  | .map kvs =>
    if keysAllowed kvs FovConfig.keys then do
      let width ← getField kvs "width" ⟨"5", "deg"⟩ AngleType.validate
      let height ← getField kvs "height" ⟨"5", "deg"⟩ AngleType.validate
      .ok { width, height }
    else .error "extra fields not permitted"
  | _ => .error "value is not a valid dict"

/-- Full serialization of all fields, in declaration order. -/
def FovConfig.toPairs (c : FovConfig) : List (String × YamlValue) :=
  [("width", AngleType.encode c.width),
   ("height", AngleType.encode c.height)]

/-- Full serialization as a mapping. -/
def FovConfig.toDict (c : FovConfig) : YamlValue := .map c.toPairs

/-- `dict(exclude_defaults=True)`. -/
def FovConfig.dictND (c : FovConfig) : List (String × YamlValue) :=
  ndField "width" c.width ⟨"5", "deg"⟩ AngleType.encode ++
  ndField "height" c.height ⟨"5", "deg"⟩ AngleType.encode

/-- All scalar fields are in canonical form. -/
def FovConfig.Wf (c : FovConfig) : Bool :=
  AngleType.Wf c.width && AngleType.Wf c.height

/-- Field-wise overlay of explicitly-set override fields. -/
def FovConfig.specMerge (b o : FovConfig) : FovConfig where
  width := if o.width = ⟨"5", "deg"⟩ then b.width else o.width
  height := if o.height = ⟨"5", "deg"⟩ then b.height else o.height

/-- `SelectionConfig(offset_max="2.5 deg")`. -/
structure SelectionConfig where
  offset_max : AngleType := ⟨"2.5", "deg"⟩
deriving DecidableEq, Repr

/-- Declared field names of `SelectionConfig`. -/
def SelectionConfig.keys : List String := ["offset_max"]

/-- Construct a `SelectionConfig` from a mapping. -/
def SelectionConfig.fromDict : YamlValue → Except String SelectionConfig
  | .map kvs =>
    if keysAllowed kvs SelectionConfig.keys then do
      let offset_max ← getField kvs "offset_max" ⟨"2.5", "deg"⟩ AngleType.validate
      .ok { offset_max }
    else .error "extra fields not permitted"
  | _ => .error "value is not a valid dict"

/-- Full serialization of all fields, in declaration order. -/
def SelectionConfig.toPairs (c : SelectionConfig) : List (String × YamlValue) :=
  [("offset_max", AngleType.encode c.offset_max)]

/-- Full serialization as a mapping. -/
def SelectionConfig.toDict (c : SelectionConfig) : YamlValue := .map c.toPairs

/-- `dict(exclude_defaults=True)`. -/
def SelectionConfig.dictND (c : SelectionConfig) : List (String × YamlValue) :=
  ndField "offset_max" c.offset_max ⟨"2.5", "deg"⟩ AngleType.encode

/-- All scalar fields are in canonical form. -/
def SelectionConfig.Wf (c : SelectionConfig) : Bool := AngleType.Wf c.offset_max

/-- Field-wise overlay of explicitly-set override fields. -/
def SelectionConfig.specMerge (b o : SelectionConfig) : SelectionConfig where
  offset_max := if o.offset_max = ⟨"2.5", "deg"⟩ then b.offset_max else o.offset_max

/-- `BackgroundConfig(method=reflected, exclusion=None)`.  `exclusion` is
a `FilePath`; paths serialize as their text, the filesystem is out of
scope. -/
structure BackgroundConfig where
  method : BackgroundMethodEnum := .reflected
  exclusion : Option String := none
deriving DecidableEq, Repr

/-- Declared field names of `BackgroundConfig`. -/
def BackgroundConfig.keys : List String := ["method", "exclusion"]

/-- Construct a `BackgroundConfig` from a mapping. -/
def BackgroundConfig.fromDict : YamlValue → Except String BackgroundConfig
  | .map kvs =>
    if keysAllowed kvs BackgroundConfig.keys then do
      let method ← getField kvs "method" .reflected BackgroundMethodEnum.validate
      let exclusion ← getField kvs "exclusion" none (validateOpt validateStr)
      .ok { method, exclusion }
    else .error "extra fields not permitted"
  | _ => .error "value is not a valid dict"

/-- Full serialization of all fields, in declaration order. -/
def BackgroundConfig.toPairs (c : BackgroundConfig) : List (String × YamlValue) :=
  [("method", BackgroundMethodEnum.encode c.method),
   ("exclusion", encodeOpt encodeStr c.exclusion)]

/-- Full serialization as a mapping. -/
def BackgroundConfig.toDict (c : BackgroundConfig) : YamlValue := .map c.toPairs

/-- `dict(exclude_defaults=True)`. -/
def BackgroundConfig.dictND (c : BackgroundConfig) : List (String × YamlValue) :=
  ndField "method" c.method .reflected BackgroundMethodEnum.encode ++
  ndField "exclusion" c.exclusion none (encodeOpt encodeStr)

/-- All scalar fields are in canonical form (none here). -/
def BackgroundConfig.Wf (_c : BackgroundConfig) : Bool := true

/-- Field-wise overlay of explicitly-set override fields. -/
def BackgroundConfig.specMerge (b o : BackgroundConfig) : BackgroundConfig where
  method := if o.method = .reflected then b.method else o.method
  exclusion := if o.exclusion = none then b.exclusion else o.exclusion

/-- `LogConfig(level="info", filename=None, filemode=None, format=None,
datefmt=None)`. -/
structure LogConfig where
  level : String := "info"
  filename : Option String := none
  filemode : Option String := none
  format : Option String := none
  datefmt : Option String := none
deriving DecidableEq, Repr

/-- Declared field names of `LogConfig`. -/
def LogConfig.keys : List String := ["level", "filename", "filemode", "format", "datefmt"]

/-- Construct a `LogConfig` from a mapping. -/
def LogConfig.fromDict : YamlValue → Except String LogConfig
  | .map kvs =>
    if keysAllowed kvs LogConfig.keys then do
      let level ← getField kvs "level" "info" validateStr
      let filename ← getField kvs "filename" none (validateOpt validateStr)
      let filemode ← getField kvs "filemode" none (validateOpt validateStr)
      let format ← getField kvs "format" none (validateOpt validateStr)
      let datefmt ← getField kvs "datefmt" none (validateOpt validateStr)
      .ok { level, filename, filemode, format, datefmt }
    else .error "extra fields not permitted"
  | _ => .error "value is not a valid dict"

/-- Full serialization of all fields, in declaration order. -/
def LogConfig.toPairs (c : LogConfig) : List (String × YamlValue) :=
  [("level", encodeStr c.level),
   ("filename", encodeOpt encodeStr c.filename),
   ("filemode", encodeOpt encodeStr c.filemode),
   ("format", encodeOpt encodeStr c.format),
   ("datefmt", encodeOpt encodeStr c.datefmt)]

/-- Full serialization as a mapping. -/
def LogConfig.toDict (c : LogConfig) : YamlValue := .map c.toPairs

/-- `dict(exclude_defaults=True)`. -/
def LogConfig.dictND (c : LogConfig) : List (String × YamlValue) :=
  ndField "level" c.level "info" encodeStr ++
  ndField "filename" c.filename none (encodeOpt encodeStr) ++
  ndField "filemode" c.filemode none (encodeOpt encodeStr) ++
  ndField "format" c.format none (encodeOpt encodeStr) ++
  ndField "datefmt" c.datefmt none (encodeOpt encodeStr)

/-- All scalar fields are in canonical form (none here). -/
def LogConfig.Wf (_c : LogConfig) : Bool := true

/-- Field-wise overlay of explicitly-set override fields. -/
def LogConfig.specMerge (b o : LogConfig) : LogConfig where
  level := if o.level = "info" then b.level else o.level
  filename := if o.filename = none then b.filename else o.filename
  filemode := if o.filemode = none then b.filemode else o.filemode
  format := if o.format = none then b.format else o.format
  datefmt := if o.datefmt = none then b.datefmt else o.datefmt

/-- `FluxPointsConfig(energy=EnergyAxisConfig())`. -/
structure FluxPointsConfig where
  energy : EnergyAxisConfig := {}
deriving DecidableEq, Repr

/-- Declared field names of `FluxPointsConfig`. -/
def FluxPointsConfig.keys : List String := ["energy"]

/-- Construct a `FluxPointsConfig` from a mapping. -/
def FluxPointsConfig.fromDict : YamlValue → Except String FluxPointsConfig
  | .map kvs =>
    if keysAllowed kvs FluxPointsConfig.keys then do
      let energy ← getField kvs "energy" {} EnergyAxisConfig.fromDict
      .ok { energy }
    else .error "extra fields not permitted"
  | _ => .error "value is not a valid dict"

/-- Full serialization of all fields, in declaration order. -/
def FluxPointsConfig.toPairs (c : FluxPointsConfig) : List (String × YamlValue) :=
  [("energy", c.energy.toDict)]

/-- Full serialization as a mapping. -/
def FluxPointsConfig.toDict (c : FluxPointsConfig) : YamlValue := .map c.toPairs

/-- `dict(exclude_defaults=True)`: a nested record is exported iff it
differs from its default instance, and then only its non-default leaves. -/
def FluxPointsConfig.dictND (c : FluxPointsConfig) : List (String × YamlValue) :=
  ndField "energy" c.energy {} (fun x => .map x.dictND)

/-- All scalar fields of the tree are in canonical form. -/
def FluxPointsConfig.Wf (c : FluxPointsConfig) : Bool := c.energy.Wf

/-- Field-wise overlay; nested records merge recursively. -/
def FluxPointsConfig.specMerge (b o : FluxPointsConfig) : FluxPointsConfig where
  energy := if o.energy = {} then b.energy else EnergyAxisConfig.specMerge b.energy o.energy

/-- `FitConfig(fit_range=EnergyRangeConfig())`. -/
structure FitConfig where
  fit_range : EnergyRangeConfig := {}
deriving DecidableEq, Repr

/-- Declared field names of `FitConfig`. -/
def FitConfig.keys : List String := ["fit_range"]

/-- Construct a `FitConfig` from a mapping. -/
def FitConfig.fromDict : YamlValue → Except String FitConfig
  | .map kvs =>
    if keysAllowed kvs FitConfig.keys then do
      let fit_range ← getField kvs "fit_range" {} EnergyRangeConfig.fromDict
      .ok { fit_range }
    else .error "extra fields not permitted"
  | _ => .error "value is not a valid dict"

/-- Full serialization of all fields, in declaration order. -/
def FitConfig.toPairs (c : FitConfig) : List (String × YamlValue) :=
  [("fit_range", c.fit_range.toDict)]

/-- Full serialization as a mapping. -/
def FitConfig.toDict (c : FitConfig) : YamlValue := .map c.toPairs

/-- `dict(exclude_defaults=True)`. -/
def FitConfig.dictND (c : FitConfig) : List (String × YamlValue) :=
  ndField "fit_range" c.fit_range {} (fun x => .map x.dictND)

/-- All scalar fields of the tree are in canonical form. -/
def FitConfig.Wf (c : FitConfig) : Bool := c.fit_range.Wf

/-- Field-wise overlay; nested records merge recursively. -/
def FitConfig.specMerge (b o : FitConfig) : FitConfig where
  fit_range := if o.fit_range = {} then b.fit_range
    else EnergyRangeConfig.specMerge b.fit_range o.fit_range

/-- `EnergyAxesConfig(energy=EnergyAxisConfig(), energy_true=EnergyAxisConfig())`. -/
structure EnergyAxesConfig where
  energy : EnergyAxisConfig := {}
  energy_true : EnergyAxisConfig := {}
deriving DecidableEq, Repr

/-- Declared field names of `EnergyAxesConfig`. -/
def EnergyAxesConfig.keys : List String := ["energy", "energy_true"]

/-- Construct an `EnergyAxesConfig` from a mapping. -/
def EnergyAxesConfig.fromDict : YamlValue → Except String EnergyAxesConfig
  | .map kvs =>
    if keysAllowed kvs EnergyAxesConfig.keys then do
      let energy ← getField kvs "energy" {} EnergyAxisConfig.fromDict
      let energy_true ← getField kvs "energy_true" {} EnergyAxisConfig.fromDict
      .ok { energy, energy_true }
    else .error "extra fields not permitted"
  | _ => .error "value is not a valid dict"

/-- Full serialization of all fields, in declaration order. -/
def EnergyAxesConfig.toPairs (c : EnergyAxesConfig) : List (String × YamlValue) :=
  [("energy", c.energy.toDict),
   ("energy_true", c.energy_true.toDict)]

/-- Full serialization as a mapping. -/
def EnergyAxesConfig.toDict (c : EnergyAxesConfig) : YamlValue := .map c.toPairs

/-- `dict(exclude_defaults=True)`. -/
def EnergyAxesConfig.dictND (c : EnergyAxesConfig) : List (String × YamlValue) :=
  ndField "energy" c.energy {} (fun x => .map x.dictND) ++
  ndField "energy_true" c.energy_true {} (fun x => .map x.dictND)

/-- All scalar fields of the tree are in canonical form. -/
def EnergyAxesConfig.Wf (c : EnergyAxesConfig) : Bool :=
  c.energy.Wf && c.energy_true.Wf

/-- Field-wise overlay; nested records merge recursively. -/
def EnergyAxesConfig.specMerge (b o : EnergyAxesConfig) : EnergyAxesConfig where
  energy := if o.energy = {} then b.energy else EnergyAxisConfig.specMerge b.energy o.energy
  energy_true := if o.energy_true = {} then b.energy_true
    else EnergyAxisConfig.specMerge b.energy_true o.energy_true

/-- `WcsConfig(skydir=SkyCoordConfig(), binsize="0.1 deg", fov=FovConfig(),
binsize_irf="0.1 deg", margin_irf="0.1 deg")`. -/
structure WcsConfig where
  skydir : SkyCoordConfig := {}
  binsize : AngleType := ⟨"0.1", "deg"⟩
  fov : FovConfig := {}
  binsize_irf : AngleType := ⟨"0.1", "deg"⟩
  margin_irf : AngleType := ⟨"0.1", "deg"⟩
deriving DecidableEq, Repr

/-- Declared field names of `WcsConfig`. -/
def WcsConfig.keys : List String :=
  ["skydir", "binsize", "fov", "binsize_irf", "margin_irf"]

/-- Construct a `WcsConfig` from a mapping. -/
def WcsConfig.fromDict : YamlValue → Except String WcsConfig
  | .map kvs =>
    if keysAllowed kvs WcsConfig.keys then do
      let skydir ← getField kvs "skydir" {} SkyCoordConfig.fromDict
      let binsize ← getField kvs "binsize" ⟨"0.1", "deg"⟩ AngleType.validate
      let fov ← getField kvs "fov" {} FovConfig.fromDict
      let binsize_irf ← getField kvs "binsize_irf" ⟨"0.1", "deg"⟩ AngleType.validate
      let margin_irf ← getField kvs "margin_irf" ⟨"0.1", "deg"⟩ AngleType.validate
      .ok { skydir, binsize, fov, binsize_irf, margin_irf }
    else .error "extra fields not permitted"
  | _ => .error "value is not a valid dict"

/-- Full serialization of all fields, in declaration order. -/
def WcsConfig.toPairs (c : WcsConfig) : List (String × YamlValue) :=
  [("skydir", c.skydir.toDict),
   ("binsize", AngleType.encode c.binsize),
   ("fov", c.fov.toDict),
   ("binsize_irf", AngleType.encode c.binsize_irf),
   ("margin_irf", AngleType.encode c.margin_irf)]

/-- Full serialization as a mapping. -/
def WcsConfig.toDict (c : WcsConfig) : YamlValue := .map c.toPairs

/-- `dict(exclude_defaults=True)`. -/
def WcsConfig.dictND (c : WcsConfig) : List (String × YamlValue) :=
  ndField "skydir" c.skydir {} (fun x => .map x.dictND) ++
  ndField "binsize" c.binsize ⟨"0.1", "deg"⟩ AngleType.encode ++
  ndField "fov" c.fov {} (fun x => .map x.dictND) ++
  ndField "binsize_irf" c.binsize_irf ⟨"0.1", "deg"⟩ AngleType.encode ++
  ndField "margin_irf" c.margin_irf ⟨"0.1", "deg"⟩ AngleType.encode

/-- All scalar fields of the tree are in canonical form. -/
def WcsConfig.Wf (c : WcsConfig) : Bool :=
  c.skydir.Wf && AngleType.Wf c.binsize && c.fov.Wf &&
  AngleType.Wf c.binsize_irf && AngleType.Wf c.margin_irf

/-- Field-wise overlay; nested records merge recursively. -/
def WcsConfig.specMerge (b o : WcsConfig) : WcsConfig where
  skydir := if o.skydir = {} then b.skydir else SkyCoordConfig.specMerge b.skydir o.skydir
  binsize := if o.binsize = ⟨"0.1", "deg"⟩ then b.binsize else o.binsize
  fov := if o.fov = {} then b.fov else FovConfig.specMerge b.fov o.fov
  binsize_irf := if o.binsize_irf = ⟨"0.1", "deg"⟩ then b.binsize_irf else o.binsize_irf
  margin_irf := if o.margin_irf = ⟨"0.1", "deg"⟩ then b.margin_irf else o.margin_irf

/-- `GeomConfig(wcs=WcsConfig(), selection=SelectionConfig(), axes=EnergyAxesConfig())`. -/
structure GeomConfig where
  wcs : WcsConfig := {}
  selection : SelectionConfig := {}
  axes : EnergyAxesConfig := {}
deriving DecidableEq, Repr

/-- Declared field names of `GeomConfig`. -/
def GeomConfig.keys : List String := ["wcs", "selection", "axes"]

/-- Construct a `GeomConfig` from a mapping. -/
def GeomConfig.fromDict : YamlValue → Except String GeomConfig
  | .map kvs =>
    if keysAllowed kvs GeomConfig.keys then do
      let wcs ← getField kvs "wcs" {} WcsConfig.fromDict
      let selection ← getField kvs "selection" {} SelectionConfig.fromDict
      let axes ← getField kvs "axes" {} EnergyAxesConfig.fromDict
      .ok { wcs, selection, axes }
    else .error "extra fields not permitted"
  | _ => .error "value is not a valid dict"

/-- Full serialization of all fields, in declaration order. -/
def GeomConfig.toPairs (c : GeomConfig) : List (String × YamlValue) :=
  [("wcs", c.wcs.toDict),
   ("selection", c.selection.toDict),
   ("axes", c.axes.toDict)]

/-- Full serialization as a mapping. -/
def GeomConfig.toDict (c : GeomConfig) : YamlValue := .map c.toPairs

/-- `dict(exclude_defaults=True)`. -/
def GeomConfig.dictND (c : GeomConfig) : List (String × YamlValue) :=
  ndField "wcs" c.wcs {} (fun x => .map x.dictND) ++
  ndField "selection" c.selection {} (fun x => .map x.dictND) ++
  ndField "axes" c.axes {} (fun x => .map x.dictND)

/-- All scalar fields of the tree are in canonical form. -/
def GeomConfig.Wf (c : GeomConfig) : Bool :=
  c.wcs.Wf && c.selection.Wf && c.axes.Wf

/-- Field-wise overlay; nested records merge recursively. -/
def GeomConfig.specMerge (b o : GeomConfig) : GeomConfig where
  wcs := if o.wcs = {} then b.wcs else WcsConfig.specMerge b.wcs o.wcs
  selection := if o.selection = {} then b.selection
    else SelectionConfig.specMerge b.selection o.selection
  axes := if o.axes = {} then b.axes else EnergyAxesConfig.specMerge b.axes o.axes

/-- `DatasetsConfig(type=spectrum, stack=True, geom=GeomConfig(),
map_selection=MapDatasetMaker.available_selection,
background=BackgroundConfig(), on_region=SpatialCircleConfig(),
containment_correction=True)`. -/
structure DatasetsConfig where
  type : ReductionTypeEnum := .spectrum
  stack : Bool := true
  geom : GeomConfig := {}
  map_selection : List MapSelectionEnum := availableSelection
  background : BackgroundConfig := {}
  on_region : SpatialCircleConfig := {}
  containment_correction : Bool := true
deriving DecidableEq, Repr

/-- Declared field names of `DatasetsConfig`. -/
def DatasetsConfig.keys : List String :=
  ["type", "stack", "geom", "map_selection", "background", "on_region",
   "containment_correction"]

/-- Construct a `DatasetsConfig` from a mapping. -/
def DatasetsConfig.fromDict : YamlValue → Except String DatasetsConfig
  | .map kvs =>
    if keysAllowed kvs DatasetsConfig.keys then do
      let type ← getField kvs "type" .spectrum ReductionTypeEnum.validate
      let stack ← getField kvs "stack" true validateBool
      let geom ← getField kvs "geom" {} GeomConfig.fromDict
      let map_selection ← getField kvs "map_selection" availableSelection
        (validateList MapSelectionEnum.validate)
      let background ← getField kvs "background" {} BackgroundConfig.fromDict
      let on_region ← getField kvs "on_region" {} SpatialCircleConfig.fromDict
      let containment_correction ← getField kvs "containment_correction" true validateBool
      .ok { type, stack, geom, map_selection, background, on_region,
            containment_correction }
    else .error "extra fields not permitted"
  | _ => .error "value is not a valid dict"

/-- Full serialization of all fields, in declaration order. -/
def DatasetsConfig.toPairs (c : DatasetsConfig) : List (String × YamlValue) :=
  [("type", ReductionTypeEnum.encode c.type),
   ("stack", encodeBool c.stack),
   ("geom", c.geom.toDict),
   ("map_selection", encodeList MapSelectionEnum.encode c.map_selection),
   ("background", c.background.toDict),
   ("on_region", c.on_region.toDict),
   ("containment_correction", encodeBool c.containment_correction)]

/-- Full serialization as a mapping. -/
def DatasetsConfig.toDict (c : DatasetsConfig) : YamlValue := .map c.toPairs

/-- `dict(exclude_defaults=True)`; list-valued fields export wholesale. -/
def DatasetsConfig.dictND (c : DatasetsConfig) : List (String × YamlValue) :=
  ndField "type" c.type .spectrum ReductionTypeEnum.encode ++
  ndField "stack" c.stack true encodeBool ++
  ndField "geom" c.geom {} (fun x => .map x.dictND) ++
  ndField "map_selection" c.map_selection availableSelection
    (encodeList MapSelectionEnum.encode) ++
  ndField "background" c.background {} (fun x => .map x.dictND) ++
  ndField "on_region" c.on_region {} (fun x => .map x.dictND) ++
  ndField "containment_correction" c.containment_correction true encodeBool

/-- All scalar fields of the tree are in canonical form. -/
def DatasetsConfig.Wf (c : DatasetsConfig) : Bool :=
  c.geom.Wf && c.background.Wf && c.on_region.Wf

/-- Field-wise overlay; nested records merge recursively, list fields are
replaced wholesale when explicitly set. -/
def DatasetsConfig.specMerge (b o : DatasetsConfig) : DatasetsConfig where
  type := if o.type = .spectrum then b.type else o.type
  stack := if o.stack = true then b.stack else o.stack
  geom := if o.geom = {} then b.geom else GeomConfig.specMerge b.geom o.geom
  map_selection := if o.map_selection = availableSelection then b.map_selection
    else o.map_selection
  background := if o.background = {} then b.background
    else BackgroundConfig.specMerge b.background o.background
  on_region := if o.on_region = {} then b.on_region
    else SpatialCircleConfig.specMerge b.on_region o.on_region
  containment_correction := if o.containment_correction = true
    then b.containment_correction else o.containment_correction

/-- `ObservationsConfig(datastore=Path("$GAMMAPY_DATA/hess-dl3-dr1/"),
obs_ids=[], obs_file=None, obs_cone=SpatialCircleConfig(),
obs_time=TimeRangeConfig())`.  `Path` normalizes away the trailing slash,
so the canonical default text is without it. -/
structure ObservationsConfig where
  datastore : String := "$GAMMAPY_DATA/hess-dl3-dr1"
  obs_ids : List Int := []
  obs_file : Option String := none
  obs_cone : SpatialCircleConfig := {}
  obs_time : TimeRangeConfig := {}
deriving DecidableEq, Repr

/-- Declared field names of `ObservationsConfig`. -/
def ObservationsConfig.keys : List String :=
  ["datastore", "obs_ids", "obs_file", "obs_cone", "obs_time"]

/-- Construct an `ObservationsConfig` from a mapping. -/
def ObservationsConfig.fromDict : YamlValue → Except String ObservationsConfig
  | .map kvs =>
    if keysAllowed kvs ObservationsConfig.keys then do
      let datastore ← getField kvs "datastore" "$GAMMAPY_DATA/hess-dl3-dr1" validateStr
      let obs_ids ← getField kvs "obs_ids" [] (validateList validateInt)
      let obs_file ← getField kvs "obs_file" none (validateOpt validateStr)
      let obs_cone ← getField kvs "obs_cone" {} SpatialCircleConfig.fromDict
      let obs_time ← getField kvs "obs_time" {} TimeRangeConfig.fromDict
      .ok { datastore, obs_ids, obs_file, obs_cone, obs_time }
    else .error "extra fields not permitted"
  | _ => .error "value is not a valid dict"

/-- Full serialization of all fields, in declaration order. -/
def ObservationsConfig.toPairs (c : ObservationsConfig) : List (String × YamlValue) :=
  [("datastore", encodeStr c.datastore),
   ("obs_ids", encodeList encodeInt c.obs_ids),
   ("obs_file", encodeOpt encodeStr c.obs_file),
   ("obs_cone", c.obs_cone.toDict),
   ("obs_time", c.obs_time.toDict)]

/-- Full serialization as a mapping. -/
def ObservationsConfig.toDict (c : ObservationsConfig) : YamlValue := .map c.toPairs

/-- `dict(exclude_defaults=True)`. -/
def ObservationsConfig.dictND (c : ObservationsConfig) : List (String × YamlValue) :=
  ndField "datastore" c.datastore "$GAMMAPY_DATA/hess-dl3-dr1" encodeStr ++
  ndField "obs_ids" c.obs_ids [] (encodeList encodeInt) ++
  ndField "obs_file" c.obs_file none (encodeOpt encodeStr) ++
  ndField "obs_cone" c.obs_cone {} (fun x => .map x.dictND) ++
  ndField "obs_time" c.obs_time {} (fun x => .map x.dictND)

/-- All scalar fields of the tree are in canonical form. -/
def ObservationsConfig.Wf (c : ObservationsConfig) : Bool :=
  c.obs_cone.Wf && c.obs_time.Wf

/-- Field-wise overlay; nested records merge recursively, list fields are
replaced wholesale when explicitly set. -/
def ObservationsConfig.specMerge (b o : ObservationsConfig) : ObservationsConfig where
  datastore := if o.datastore = "$GAMMAPY_DATA/hess-dl3-dr1" then b.datastore
    else o.datastore
  obs_ids := if o.obs_ids = [] then b.obs_ids else o.obs_ids
  obs_file := if o.obs_file = none then b.obs_file else o.obs_file
  obs_cone := if o.obs_cone = {} then b.obs_cone
    else SpatialCircleConfig.specMerge b.obs_cone o.obs_cone
  obs_time := if o.obs_time = {} then b.obs_time
    else TimeRangeConfig.specMerge b.obs_time o.obs_time

/-- `GeneralConfig(log=LogConfig(), outdir=".")`. -/
structure GeneralConfig where
  log : LogConfig := {}
  outdir : String := "."
deriving DecidableEq, Repr

/-- Declared field names of `GeneralConfig`. -/
def GeneralConfig.keys : List String := ["log", "outdir"]

/-- Construct a `GeneralConfig` from a mapping. -/
def GeneralConfig.fromDict : YamlValue → Except String GeneralConfig
  | .map kvs =>
    if keysAllowed kvs GeneralConfig.keys then do
      let log ← getField kvs "log" {} LogConfig.fromDict
      let outdir ← getField kvs "outdir" "." validateStr
      .ok { log, outdir }
    else .error "extra fields not permitted"
  | _ => .error "value is not a valid dict"

/-- Full serialization of all fields, in declaration order. -/
def GeneralConfig.toPairs (c : GeneralConfig) : List (String × YamlValue) :=
  [("log", c.log.toDict),
   ("outdir", encodeStr c.outdir)]

/-- Full serialization as a mapping. -/
def GeneralConfig.toDict (c : GeneralConfig) : YamlValue := .map c.toPairs

/-- `dict(exclude_defaults=True)`. -/
def GeneralConfig.dictND (c : GeneralConfig) : List (String × YamlValue) :=
  ndField "log" c.log {} (fun x => .map x.dictND) ++
  ndField "outdir" c.outdir "." encodeStr

/-- All scalar fields of the tree are in canonical form. -/
def GeneralConfig.Wf (c : GeneralConfig) : Bool := c.log.Wf

/-- Field-wise overlay; nested records merge recursively. -/
def GeneralConfig.specMerge (b o : GeneralConfig) : GeneralConfig where
  log := if o.log = {} then b.log else LogConfig.specMerge b.log o.log
  outdir := if o.outdir = "." then b.outdir else o.outdir

/-- `AnalysisConfig`: the root configuration model. -/
structure AnalysisConfig where
  general : GeneralConfig := {}
  observations : ObservationsConfig := {}
  datasets : DatasetsConfig := {}
  fit : FitConfig := {}
  flux_points : FluxPointsConfig := {}
deriving DecidableEq, Repr

/-- Declared field names of `AnalysisConfig`. -/
def AnalysisConfig.keys : List String :=
  ["general", "observations", "datasets", "fit", "flux_points"]

/-- Construct an `AnalysisConfig` from a mapping (`AnalysisConfig(**settings)`). -/
def AnalysisConfig.fromDict : YamlValue → Except String AnalysisConfig
  | .map kvs =>
    if keysAllowed kvs AnalysisConfig.keys then do
      let general ← getField kvs "general" {} GeneralConfig.fromDict
      let observations ← getField kvs "observations" {} ObservationsConfig.fromDict
      let datasets ← getField kvs "datasets" {} DatasetsConfig.fromDict
      let fit ← getField kvs "fit" {} FitConfig.fromDict
      let flux_points ← getField kvs "flux_points" {} FluxPointsConfig.fromDict
      .ok { general, observations, datasets, fit, flux_points }
    else .error "extra fields not permitted"
  | _ => .error "value is not a valid dict"

/-- Full serialization of all fields, in declaration order. -/
def AnalysisConfig.toPairs (c : AnalysisConfig) : List (String × YamlValue) :=
  [("general", c.general.toDict),
   ("observations", c.observations.toDict),
   ("datasets", c.datasets.toDict),
   ("fit", c.fit.toDict),
   ("flux_points", c.flux_points.toDict)]

/-- Full serialization as a mapping. -/
def AnalysisConfig.toDict (c : AnalysisConfig) : YamlValue := .map c.toPairs

/-- `dict(exclude_defaults=True)`. -/
def AnalysisConfig.dictND (c : AnalysisConfig) : List (String × YamlValue) :=
  ndField "general" c.general {} (fun x => .map x.dictND) ++
  ndField "observations" c.observations {} (fun x => .map x.dictND) ++
  ndField "datasets" c.datasets {} (fun x => .map x.dictND) ++
  ndField "fit" c.fit {} (fun x => .map x.dictND) ++
  ndField "flux_points" c.flux_points {} (fun x => .map x.dictND)

/-- All scalar fields of the tree are in canonical form.  Every
configuration the program builds through validation satisfies this; it is
the meaning of "validly constructed". -/
def AnalysisConfig.Wf (c : AnalysisConfig) : Bool :=
  c.general.Wf && c.observations.Wf && c.datasets.Wf && c.fit.Wf && c.flux_points.Wf

/-- Field-wise overlay; nested records merge recursively. -/
def AnalysisConfig.specMerge (b o : AnalysisConfig) : AnalysisConfig where
  general := if o.general = {} then b.general
    else GeneralConfig.specMerge b.general o.general
  observations := if o.observations = {} then b.observations
    else ObservationsConfig.specMerge b.observations o.observations
  datasets := if o.datasets = {} then b.datasets
    else DatasetsConfig.specMerge b.datasets o.datasets
  fit := if o.fit = {} then b.fit else FitConfig.specMerge b.fit o.fit
  flux_points := if o.flux_points = {} then b.flux_points
    else FluxPointsConfig.specMerge b.flux_points o.flux_points

/-- `to_yaml`: `yaml.dump(json.loads(self.json()), ...)`.  The collaborator
dump/parse pair is modelled by the identity on `YamlValue` trees, so the
serialized document is the full-field mapping with the custom encoders
applied and fields in declaration order. -/
def AnalysisConfig.to_yaml (c : AnalysisConfig) : YamlValue := c.toDict

/-- `from_yaml`: `AnalysisConfig(**yaml.safe_load(config_str))`; the
argument is the parsed document. -/
def AnalysisConfig.from_yaml (v : YamlValue) : Except String AnalysisConfig :=
  AnalysisConfig.fromDict v

/-- The argument accepted by `AnalysisConfig.update`: `None`, a YAML
string (represented by the mapping `yaml.safe_load` returns for it), a
plain mapping, or another `AnalysisConfig`. -/
inductive UpdateArg where
  | nullArg
  | strArg (kvs : List (String × YamlValue))
  | dictArg (kvs : List (String × YamlValue))
  | configArg (c : AnalysisConfig)

/-- `AnalysisConfig.update`: a string is parsed to a dict, a dict is
validated into an `AnalysisConfig`, and an `AnalysisConfig` override is
merged by `deep_update` of the two `dict(exclude_defaults=True)` exports,
the composite being re-validated as a whole; any other argument
(i.e. `None`) falls through all three `isinstance` branches and returns
`None`. -/
def AnalysisConfig.update (self : AnalysisConfig) : UpdateArg → Except String (Option AnalysisConfig)
  | .nullArg => .ok none
  | .strArg kvs => do
    let cfg ← AnalysisConfig.fromDict (.map kvs)
    let res ← AnalysisConfig.fromDict (.map (deepUpdate self.dictND cfg.dictND))
    .ok (some res)
  | .dictArg kvs => do
    let cfg ← AnalysisConfig.fromDict (.map kvs)
    let res ← AnalysisConfig.fromDict (.map (deepUpdate self.dictND cfg.dictND))
    .ok (some res)
  | .configArg cfg => do
    let res ← AnalysisConfig.fromDict (.map (deepUpdate self.dictND cfg.dictND))
    .ok (some res)

/-- The override an `update` argument denotes: the result of the
string/dict normalization prefix of `update` (`None` for `None`). -/
def UpdateArg.normalize : UpdateArg → Except String (Option AnalysisConfig)
  | .nullArg => .ok none
  | .strArg kvs => (AnalysisConfig.fromDict (.map kvs)).map some
  | .dictArg kvs => (AnalysisConfig.fromDict (.map kvs)).map some
  | .configArg c => .ok (some c)

/-- `update` with the state of the receiver traced through the call: the
method body never assigns to `self` (it only reads `self.dict(...)`), so
the receiver after the call is the receiver before it, on every path,
including the failing ones. -/
def AnalysisConfig.updateTraced (self : AnalysisConfig) (arg : UpdateArg) :
    Except String (Option AnalysisConfig) × AnalysisConfig :=
  (self.update arg, self)

/-- The override mapping of the spec's merge-precedence scenario:
`datasets: {type: "3d"}`. -/
def ovDict : List (String × YamlValue) :=
  [("datasets", YamlValue.map [("type", YamlValue.str "3d")])]

/-- The configuration that override denotes: defaults everywhere except
`datasets.type = cube`. -/
def ovConfig : AnalysisConfig := { datasets := { type := ReductionTypeEnum.cube } }

/-- A schema-invalid override: `datasets: {type: "2d"}` ("2d" is not a
`ReductionTypeEnum` literal). -/
def badDict : List (String × YamlValue) :=
  [("datasets", YamlValue.map [("type", YamlValue.str "2d")])]

/-- The validation error that override produces. -/
def badDictError : String := "value is not a valid enumeration member of ReductionTypeEnum"

theorem excBindOk {ε α β : Type} (a : α) (f : α → Except ε β) :
    (Except.ok a >>= f) = f a := rfl

theorem excBindErr {ε α β : Type} (e : ε) (f : α → Except ε β) :
    ((Except.error e : Except ε α) >>= f) = .error e := rfl

theorem excMapOk {ε α β : Type} (a : α) (f : α → β) :
    (Except.ok a : Except ε α).map f = .ok (f a) := rfl

theorem excMapErr {ε α β : Type} (e : ε) (f : α → β) :
    (Except.error e : Except ε α).map f = .error e := rfl

theorem strDataAppend (a b : String) : (a ++ b).data = a.data ++ b.data := by
  cases a
  cases b
  rfl

theorem spaceStrData : (" " : String).data = [spaceChar] := by decide

theorem splitSp_ne_nil : ∀ l : List Char, splitSp l ≠ []
  | [] => by simp [splitSp]
  | c :: rest => by
    simp only [splitSp]
    cases h : splitSp rest with
    | nil => simp
    | cons w ws => split_ifs <;> simp

theorem splitSp_noSpace : ∀ l : List Char, noSpace l = true → splitSp l = [l]
  | [], _ => rfl
  | c :: rest, h => by
    simp only [noSpace, List.all_cons, Bool.and_eq_true, decide_eq_true_eq] at h
    obtain ⟨hc, hrest⟩ := h
    have ih := splitSp_noSpace rest hrest
    simp only [splitSp]
    rw [ih]
    simp [hc]

theorem splitSp_append : ∀ v u : List Char, noSpace v = true →
    splitSp (v ++ spaceChar :: u) = v :: splitSp u
  | [], u, _ => by
    simp only [List.nil_append, splitSp]
    cases h : splitSp u with
    | nil => exact absurd h (splitSp_ne_nil u)
    | cons w ws => simp
  | c :: v', u, h => by
    simp only [noSpace, List.all_cons, Bool.and_eq_true, decide_eq_true_eq] at h
    obtain ⟨hc, hrest⟩ := h
    have ih := splitSp_append v' u hrest
    simp only [List.cons_append, splitSp, List.append_eq]
    rw [ih]
    simp [hc]

theorem splitSp_two (v u : List Char) (hv : noSpace v = true) (hu : noSpace u = true) :
    splitSp (v ++ spaceChar :: u) = [v, u] := by
  rw [splitSp_append v u hv, splitSp_noSpace u hu]

theorem wfNum_noSpace {l : List Char} (h : wellFormedNum l = true) : noSpace l = true := by
  simp only [wellFormedNum, Bool.and_eq_true, List.all_eq_true] at h
  obtain ⟨⟨_, hall⟩, _⟩ := h
  simp only [noSpace, List.all_eq_true, decide_eq_true_eq]
  intro c hc he
  have hn := hall c hc
  rw [he] at hn
  exact absurd hn (by decide)

theorem angleUnit_noSpace {u : List Char} (h : unitOk u angleUnits = true) :
    noSpace u = true := by
  simp only [unitOk, List.any_eq_true, decide_eq_true_eq] at h
  obtain ⟨s, hs, hd⟩ := h
  rw [← hd]
  simp only [angleUnits, List.mem_cons, List.not_mem_nil, or_false] at hs
  rcases hs with h | h | h | h <;> subst h <;> decide

theorem energyUnit_noSpace {u : List Char} (h : unitOk u energyUnits = true) :
    noSpace u = true := by
  simp only [unitOk, List.any_eq_true, decide_eq_true_eq] at h
  obtain ⟨s, hs, hd⟩ := h
  rw [← hd]
  simp only [energyUnits, List.mem_cons, List.not_mem_nil, or_false] at hs
  rcases hs with h | h | h | h | h | h | h <;> subst h <;> decide

theorem angleType_rt (a : AngleType) (h : a.Wf = true) :
    AngleType.validate (AngleType.encode a) = .ok a := by
  simp only [AngleType.Wf, Bool.and_eq_true] at h
  obtain ⟨h1, h2⟩ := h
  have hd : (a.value ++ " " ++ a.unit).data = a.value.data ++ spaceChar :: a.unit.data := by
    rw [strDataAppend, strDataAppend, spaceStrData]
    simp
  simp only [AngleType.encode, AngleType.validate, hd,
    splitSp_two _ _ (wfNum_noSpace h1) (angleUnit_noSpace h2)]
  simp [h1, h2]

theorem energyType_rt (a : EnergyType) (h : a.Wf = true) :
    EnergyType.validate (EnergyType.encode a) = .ok a := by
  simp only [EnergyType.Wf, Bool.and_eq_true] at h
  obtain ⟨h1, h2⟩ := h
  have hd : (a.value ++ " " ++ a.unit).data = a.value.data ++ spaceChar :: a.unit.data := by
    rw [strDataAppend, strDataAppend, spaceStrData]
    simp
  simp only [EnergyType.encode, EnergyType.validate, hd,
    splitSp_two _ _ (wfNum_noSpace h1) (energyUnit_noSpace h2)]
  simp [h1, h2]

theorem timeType_rt (t : TimeType) : TimeType.validate (TimeType.encode t) = .ok t := rfl

theorem frameEnum_rt (e : FrameEnum) : FrameEnum.validate (FrameEnum.encode e) = .ok e := by
  cases e <;> rfl

theorem reductionTypeEnum_rt (e : ReductionTypeEnum) :
    ReductionTypeEnum.validate (ReductionTypeEnum.encode e) = .ok e := by
  cases e <;> rfl

theorem backgroundMethodEnum_rt (e : BackgroundMethodEnum) :
    BackgroundMethodEnum.validate (BackgroundMethodEnum.encode e) = .ok e := by
  cases e <;> rfl

theorem mapSelectionEnum_rt (e : MapSelectionEnum) :
    MapSelectionEnum.validate (MapSelectionEnum.encode e) = .ok e := by
  cases e <;> rfl

theorem opt_frame_rt (x : Option FrameEnum) :
    validateOpt FrameEnum.validate (encodeOpt FrameEnum.encode x) = .ok x := by
  cases x with
  | none => rfl
  | some e => cases e <;> rfl

theorem opt_time_rt (x : Option TimeType) :
    validateOpt TimeType.validate (encodeOpt TimeType.encode x) = .ok x := by
  cases x <;> rfl

theorem opt_str_rt (x : Option String) :
    validateOpt validateStr (encodeOpt encodeStr x) = .ok x := by
  cases x <;> rfl

theorem opt_angle_rt (x : Option AngleType) (h : optWf AngleType.Wf x = true) :
    validateOpt AngleType.validate (encodeOpt AngleType.encode x) = .ok x := by
  cases x with
  | none => rfl
  | some a =>
    have hv := angleType_rt a h
    have hstep : validateOpt AngleType.validate (encodeOpt AngleType.encode (some a)) =
        (AngleType.validate (AngleType.encode a)).map some := rfl
    rw [hstep, hv]
    rfl

theorem mapM_val_enc {α : Type} {enc : α → YamlValue} {val : YamlValue → Except String α}
    (h : ∀ a, val (enc a) = .ok a) :
    ∀ xs : List α, (xs.map enc).mapM val = .ok xs := by
  intro xs
  induction xs with
  | nil => rfl
  | cons a rest ih =>
    rw [List.map_cons, List.mapM_cons, h a]
    simp only [excBindOk]
    rw [ih]
    rfl

theorem list_int_rt (xs : List Int) :
    validateList validateInt (encodeList encodeInt xs) = .ok xs := by
  have hstep : validateList validateInt (encodeList encodeInt xs) =
      (xs.map encodeInt).mapM validateInt := rfl
  rw [hstep, @mapM_val_enc Int encodeInt validateInt (fun _ => rfl) xs]

theorem list_msel_rt (xs : List MapSelectionEnum) :
    validateList MapSelectionEnum.validate (encodeList MapSelectionEnum.encode xs) = .ok xs := by
  have hstep : validateList MapSelectionEnum.validate (encodeList MapSelectionEnum.encode xs) =
      (xs.map MapSelectionEnum.encode).mapM MapSelectionEnum.validate := rfl
  rw [hstep, @mapM_val_enc MapSelectionEnum MapSelectionEnum.encode MapSelectionEnum.validate
    mapSelectionEnum_rt xs]

theorem lookup_setKey_self : ∀ (m : List (String × YamlValue)) (k : String) (v : YamlValue),
    lookupKey (setKey m k v) k = some v
  | [], k, v => by simp [setKey, lookupKey]
  | (k2, v2) :: rest, k, v => by
    by_cases h : k2 = k
    · simp [setKey, lookupKey, h]
    · simp only [setKey, lookupKey, if_neg h]
      exact lookup_setKey_self rest k v

theorem lookup_setKey_ne : ∀ (m : List (String × YamlValue)) (k k2 : String) (v : YamlValue),
    k ≠ k2 → lookupKey (setKey m k v) k2 = lookupKey m k2
  | [], k, k2, v, h => by simp [setKey, lookupKey, h]
  | (k3, v3) :: rest, k, k2, v, h => by
    by_cases h3 : k3 = k
    · simp [setKey, lookupKey, h3, h]
    · simp only [setKey, if_neg h3, lookupKey]
      by_cases h32 : k3 = k2
      · simp [h32]
      · simp only [if_neg h32]
        exact lookup_setKey_ne rest k k2 v h

theorem setKey_mem : ∀ {m : List (String × YamlValue)} {k : String} {v : YamlValue}
    {p : String × YamlValue}, p ∈ setKey m k v → p = (k, v) ∨ p ∈ m := by
  intro m
  induction m with
  | nil => intro k v p hp; simp [setKey] at hp; exact Or.inl hp
  | cons q rest ih =>
    intro k v p hp
    obtain ⟨k2, v2⟩ := q
    by_cases h : k2 = k
    · simp only [setKey, if_pos h, List.mem_cons] at hp
      rcases hp with hp | hp
      · exact Or.inl hp
      · exact Or.inr (List.mem_cons_of_mem _ hp)
    · simp only [setKey, if_neg h, List.mem_cons] at hp
      rcases hp with hp | hp
      · exact Or.inr (by simp [hp])
      · rcases ih hp with hp | hp
        · exact Or.inl hp
        · exact Or.inr (List.mem_cons_of_mem _ hp)

theorem setKey_append : ∀ {m : List (String × YamlValue)} {k : String} (v : YamlValue),
    lookupKey m k = none → setKey m k v = m ++ [(k, v)]
  | [], k, v, _ => rfl
  | (k2, v2) :: rest, k, v, h => by
    simp only [lookupKey] at h
    by_cases h2 : k2 = k
    · rw [if_pos h2] at h
      exact absurd h (by simp)
    · rw [if_neg h2] at h
      simp only [setKey, if_neg h2, List.cons_append, List.cons.injEq, true_and]
      exact setKey_append v h

theorem lookup_not_mem : ∀ {m : List (String × YamlValue)} {k : String},
    k ∉ m.map (fun p => p.1) → lookupKey m k = none
  | [], k, _ => rfl
  | (k2, v2) :: rest, k, h => by
    simp only [List.map_cons, List.mem_cons] at h
    push_neg at h
    obtain ⟨h1, h2⟩ := h
    simp only [lookupKey]
    rw [if_neg (fun he : k2 = k => h1 he.symm)]
    exact lookup_not_mem h2

theorem lookup_append : ∀ (m1 m2 : List (String × YamlValue)) (k : String),
    lookupKey (m1 ++ m2) k =
      (match lookupKey m1 k with
       | some v => some v
       | none => lookupKey m2 k)
  | [], m2, k => rfl
  | (k2, v2) :: rest, m2, k => by
    by_cases h : k2 = k
    · simp [lookupKey, h]
    · simp only [List.cons_append, lookupKey, if_neg h]
      exact lookup_append rest m2 k

theorem lookup_deepUpdate (k : String) :
    ∀ (m2 m1 : List (String × YamlValue)), keyNodup m2 →
    lookupKey (deepUpdate m1 m2) k =
      (match lookupKey m2 k with
       | none => lookupKey m1 k
       | some v2 => some (mergeVal (lookupKey m1 k) v2))
  | [], m1, _ => rfl
  | (k0, v0) :: rest, m1, h => by
    simp only [keyNodup, List.map_cons, List.nodup_cons] at h
    obtain ⟨h0, hrest⟩ := h
    have ih := lookup_deepUpdate k rest (setKey m1 k0 (mergeVal (lookupKey m1 k0) v0)) hrest
    simp only [deepUpdate]
    rw [ih]
    by_cases hk : k = k0
    · subst hk
      rw [lookup_not_mem h0]
      rw [lookup_setKey_self]
      simp [lookupKey]
    · rw [lookup_setKey_ne _ _ _ _ (fun he : k0 = k => hk he.symm)]
      rw [show lookupKey ((k0, v0) :: rest) k = lookupKey rest k from by
        simp only [lookupKey]
        exact if_neg (fun he : k0 = k => hk he.symm)]

theorem deepUpdate_keys {P : String → Prop} :
    ∀ (m2 m1 : List (String × YamlValue)),
    (∀ p ∈ m1, P p.1) → (∀ p ∈ m2, P p.1) → ∀ p ∈ deepUpdate m1 m2, P p.1
  | [], m1, h1, _ => by simpa [deepUpdate] using h1
  | (k0, v0) :: rest, m1, h1, h2 => by
    simp only [deepUpdate]
    refine deepUpdate_keys rest _ ?_ ?_
    · intro p hp
      rcases setKey_mem hp with hp | hp
      · rw [hp]
        exact h2 (k0, v0) (by simp)
      · exact h1 p hp
    · intro p hp
      exact h2 p (List.mem_cons_of_mem _ hp)

theorem deepUpdate_disjoint :
    ∀ (m2 m1 : List (String × YamlValue)), keyNodup m2 →
    (∀ p ∈ m2, lookupKey m1 p.1 = none) → deepUpdate m1 m2 = m1 ++ m2
  | [], m1, _, _ => by simp [deepUpdate]
  | (k0, v0) :: rest, m1, hnd, hdis => by
    simp only [keyNodup, List.map_cons, List.nodup_cons] at hnd
    obtain ⟨h0, hrest⟩ := hnd
    have hl : lookupKey m1 k0 = none := hdis (k0, v0) (by simp)
    simp only [deepUpdate, hl]
    have hmv : mergeVal none v0 = v0 := by cases v0 <;> rfl
    rw [hmv, setKey_append v0 hl]
    rw [deepUpdate_disjoint rest _ hrest ?_]
    · simp
    · intro p hp
      rw [lookup_append]
      rw [hdis p (List.mem_cons_of_mem _ hp)]
      have : lookupKey [(k0, v0)] p.1 = none := by
        simp only [lookupKey]
        rw [if_neg]
        intro he
        exact h0 (by rw [he]; exact List.mem_map_of_mem _ hp)
      simp [this]

theorem deepUpdate_nil (m : List (String × YamlValue)) (h : keyNodup m) :
    deepUpdate [] m = m := by
  rw [deepUpdate_disjoint m [] h (fun p _ => rfl)]
  simp

theorem keysAllowed_eq_true {m : List (String × YamlValue)} {ks : List String} :
    keysAllowed m ks = true ↔ ∀ p ∈ m, p.1 ∈ ks := by
  simp [keysAllowed, List.all_eq_true]

theorem getField_none {α : Type} {m : List (String × YamlValue)} {k : String} {d : α}
    {val : YamlValue → Except String α} (h : lookupKey m k = none) :
    getField m k d val = .ok d := by
  simp [getField, h]

theorem getField_some {α : Type} {m : List (String × YamlValue)} {k : String} {v : YamlValue}
    {d : α} {val : YamlValue → Except String α} (h : lookupKey m k = some v) :
    getField m k d val = val v := by
  simp [getField, h]

theorem mergeVal_skip {v : YamlValue} (w : Option YamlValue)
    (h : ∀ s, v ≠ YamlValue.map s) : mergeVal w v = v := by
  cases v with
  | map s => exact absurd rfl (h s)
  | null => cases w with
    | none => rfl
    | some x => cases x <;> rfl
  | bool b => cases w with
    | none => rfl
    | some x => cases x <;> rfl
  | int n => cases w with
    | none => rfl
    | some x => cases x <;> rfl
  | str s => cases w with
    | none => rfl
    | some x => cases x <;> rfl
  | list xs => cases w with
    | none => rfl
    | some x => cases x <;> rfl

theorem ne_map_opt_frame (x : Option FrameEnum) :
    ∀ s, encodeOpt FrameEnum.encode x ≠ .map s := by
  intro s
  cases x <;> simp [encodeOpt, FrameEnum.encode]

theorem ne_map_opt_angle (x : Option AngleType) :
    ∀ s, encodeOpt AngleType.encode x ≠ .map s := by
  intro s
  cases x <;> simp [encodeOpt, AngleType.encode]

theorem ne_map_opt_time (x : Option TimeType) :
    ∀ s, encodeOpt TimeType.encode x ≠ .map s := by
  intro s
  cases x <;> simp [encodeOpt, TimeType.encode]

theorem ne_map_opt_str (x : Option String) :
    ∀ s, encodeOpt encodeStr x ≠ .map s := by
  intro s
  cases x <;> simp [encodeOpt, encodeStr]

theorem ne_map_angle (a : AngleType) : ∀ s, AngleType.encode a ≠ .map s := by
  intro s
  simp [AngleType.encode]

theorem ne_map_energy (a : EnergyType) : ∀ s, EnergyType.encode a ≠ .map s := by
  intro s
  simp [EnergyType.encode]

theorem ne_map_str (x : String) : ∀ s, encodeStr x ≠ .map s := by
  intro s
  simp [encodeStr]

theorem ne_map_bool (b : Bool) : ∀ s, encodeBool b ≠ .map s := by
  intro s
  simp [encodeBool]

theorem ne_map_int (n : Int) : ∀ s, encodeInt n ≠ .map s := by
  intro s
  simp [encodeInt]

theorem ne_map_list {α : Type} (enc : α → YamlValue) (xs : List α) :
    ∀ s, encodeList enc xs ≠ .map s := by
  intro s
  simp [encodeList]

theorem ne_map_rte (e : ReductionTypeEnum) : ∀ s, ReductionTypeEnum.encode e ≠ .map s := by
  intro s
  simp [ReductionTypeEnum.encode]

theorem ne_map_bme (e : BackgroundMethodEnum) : ∀ s, BackgroundMethodEnum.encode e ≠ .map s := by
  intro s
  simp [BackgroundMethodEnum.encode]

theorem lookup_deepUpdate_none {mb mo : List (String × YamlValue)} {k : String}
    (hnd : keyNodup mo) (h : lookupKey mo k = none) :
    lookupKey (deepUpdate mb mo) k = lookupKey mb k := by
  rw [lookup_deepUpdate k mo mb hnd, h]

theorem lookup_deepUpdate_some {mb mo : List (String × YamlValue)} {k : String}
    {v2 : YamlValue} (hnd : keyNodup mo) (h : lookupKey mo k = some v2) :
    lookupKey (deepUpdate mb mo) k = some (mergeVal (lookupKey mb k) v2) := by
  rw [lookup_deepUpdate k mo mb hnd, h]

theorem merged_lookup_leaf {α : Type} [DecidableEq α] {mb mo : List (String × YamlValue)}
    {k : String} {enc : α → YamlValue} {d bf of : α}
    (hnd : keyNodup mo)
    (hbL : lookupKey mb k = (if bf = d then none else some (enc bf)))
    (hoL : lookupKey mo k = (if of = d then none else some (enc of)))
    (hne : ∀ a s, enc a ≠ YamlValue.map s) :
    lookupKey (deepUpdate mb mo) k =
      (if of = d then (if bf = d then none else some (enc bf)) else some (enc of)) := by
  by_cases e1 : of = d
  · rw [lookup_deepUpdate_none hnd (by rw [hoL, if_pos e1]), hbL, if_pos e1]
  · rw [lookup_deepUpdate_some hnd (by rw [hoL, if_neg e1]), if_neg e1,
      mergeVal_skip _ (hne of)]

theorem merged_lookup_nested {α : Type} [DecidableEq α] {mb mo : List (String × YamlValue)}
    {k : String} {nd : α → List (String × YamlValue)} {d bf of : α}
    (hnd : keyNodup mo)
    (hbL : lookupKey mb k = (if bf = d then none else some (.map (nd bf))))
    (hoL : lookupKey mo k = (if of = d then none else some (.map (nd of)))) :
    lookupKey (deepUpdate mb mo) k =
      (if of = d then (if bf = d then none else some (.map (nd bf)))
       else if bf = d then some (.map (nd of))
       else some (.map (deepUpdate (nd bf) (nd of)))) := by
  by_cases e1 : of = d
  · rw [lookup_deepUpdate_none hnd (by rw [hoL, if_pos e1]), hbL, if_pos e1]
  · rw [lookup_deepUpdate_some hnd (by rw [hoL, if_neg e1]), hbL, if_neg e1]
    by_cases e2 : bf = d
    · rw [if_pos e2, if_pos e2]
      rfl
    · rw [if_neg e2, if_neg e2]
      rfl

theorem getField_overlay_leaf {α : Type} [DecidableEq α] {m : List (String × YamlValue)}
    {k : String} {enc : α → YamlValue} {val : YamlValue → Except String α} {d bf of : α}
    (hl : lookupKey m k =
      (if of = d then (if bf = d then none else some (enc bf)) else some (enc of)))
    (hvb : val (enc bf) = .ok bf) (hvo : val (enc of) = .ok of) :
    getField m k d val = .ok (if of = d then bf else of) := by
  by_cases e1 : of = d
  · rw [if_pos e1] at hl
    by_cases e2 : bf = d
    · rw [if_pos e2] at hl
      rw [getField_none hl, if_pos e1, e2]
    · rw [if_neg e2] at hl
      rw [getField_some hl, hvb, if_pos e1]
  · rw [if_neg e1] at hl
    rw [getField_some hl, hvo, if_neg e1]

theorem getField_overlay_nested {α : Type} [DecidableEq α] {m : List (String × YamlValue)}
    {k : String} {nd : α → List (String × YamlValue)} {val : YamlValue → Except String α}
    {d bf of mg : α}
    (hl : lookupKey m k =
      (if of = d then (if bf = d then none else some (.map (nd bf)))
       else if bf = d then some (.map (nd of))
       else some (.map (deepUpdate (nd bf) (nd of)))))
    (hm : val (.map (deepUpdate (nd bf) (nd of))) = .ok mg)
    (hb : val (.map (nd bf)) = .ok bf)
    (ho : bf = d → val (.map (nd of)) = .ok mg) :
    getField m k d val = .ok (if of = d then bf else mg) := by
  by_cases e1 : of = d
  · rw [if_pos e1] at hl
    by_cases e2 : bf = d
    · rw [if_pos e2] at hl
      rw [getField_none hl, if_pos e1, e2]
    · rw [if_neg e2] at hl
      rw [getField_some hl, hb, if_pos e1]
  · rw [if_neg e1] at hl
    by_cases e2 : bf = d
    · rw [if_pos e2] at hl
      rw [getField_some hl, ho e2, if_neg e1]
    · rw [if_neg e2] at hl
      rw [getField_some hl, hm, if_neg e1]


theorem str_rt (x : String) : validateStr (encodeStr x) = .ok x := rfl

theorem bool_rt (b : Bool) : validateBool (encodeBool b) = .ok b := rfl

theorem int_rt (n : Int) : validateInt (encodeInt n) = .ok n := rfl

theorem lk_nd_SkyCoordConfig_frame (c : SkyCoordConfig) :
    lookupKey c.dictND "frame" =
      (if c.frame = none then none else some (encodeOpt FrameEnum.encode c.frame)) := by
  simp only [SkyCoordConfig.dictND, ndField]
  split_ifs <;> rfl

theorem lk_nd_SkyCoordConfig_lon (c : SkyCoordConfig) :
    lookupKey c.dictND "lon" =
      (if c.lon = none then none else some (encodeOpt AngleType.encode c.lon)) := by
  simp only [SkyCoordConfig.dictND, ndField]
  split_ifs <;> rfl

theorem lk_nd_SkyCoordConfig_lat (c : SkyCoordConfig) :
    lookupKey c.dictND "lat" =
      (if c.lat = none then none else some (encodeOpt AngleType.encode c.lat)) := by
  simp only [SkyCoordConfig.dictND, ndField]
  split_ifs <;> rfl

theorem ndNodup_SkyCoordConfig (c : SkyCoordConfig) : keyNodup c.dictND := by
  simp only [SkyCoordConfig.dictND, ndField, keyNodup]
  split_ifs <;> simp

theorem ndAllowed_SkyCoordConfig (c : SkyCoordConfig) :
    keysAllowed c.dictND SkyCoordConfig.keys = true := by
  simp only [SkyCoordConfig.dictND, ndField, keysAllowed, SkyCoordConfig.keys]
  split_ifs <;> simp

theorem smLeft_SkyCoordConfig (o : SkyCoordConfig) : SkyCoordConfig.specMerge {} o = o := by
  obtain ⟨x0, x1, x2⟩ := o
  simp only [SkyCoordConfig.specMerge, SkyCoordConfig.mk.injEq]
  refine ⟨?_, ?_, ?_⟩ <;> (try split_ifs) <;> simp_all

theorem rtFull_SkyCoordConfig (c : SkyCoordConfig) (h : c.Wf = true) :
    SkyCoordConfig.fromDict c.toDict = .ok c := by
  simp only [SkyCoordConfig.Wf, Bool.and_eq_true] at h
  obtain ⟨hlon, hlat⟩ := h
  have hk : keysAllowed c.toPairs SkyCoordConfig.keys = true := rfl
  have l0 : lookupKey c.toPairs "frame" = some (encodeOpt FrameEnum.encode c.frame) := rfl
  have l1 : lookupKey c.toPairs "lon" = some (encodeOpt AngleType.encode c.lon) := rfl
  have l2 : lookupKey c.toPairs "lat" = some (encodeOpt AngleType.encode c.lat) := rfl
  show SkyCoordConfig.fromDict (.map c.toPairs) = .ok c
  simp only [SkyCoordConfig.fromDict]
  rw [if_pos hk]
  rw [getField_some l0, opt_frame_rt c.frame]
  simp only [excBindOk]
  rw [getField_some l1, opt_angle_rt c.lon hlon]
  simp only [excBindOk]
  rw [getField_some l2, opt_angle_rt c.lat hlat]
  simp only [excBindOk]

theorem mergeOk_SkyCoordConfig (b o : SkyCoordConfig) (hb : b.Wf = true) (ho : o.Wf = true) :
    SkyCoordConfig.fromDict (.map (deepUpdate b.dictND o.dictND)) = .ok (b.specMerge o) := by
  simp only [SkyCoordConfig.Wf, Bool.and_eq_true] at hb ho
  obtain ⟨hblon, hblat⟩ := hb
  obtain ⟨holon, holat⟩ := ho
  have hnd := ndNodup_SkyCoordConfig o
  have hk : keysAllowed (deepUpdate b.dictND o.dictND) SkyCoordConfig.keys = true := by
    rw [keysAllowed_eq_true]
    exact deepUpdate_keys o.dictND b.dictND
      (keysAllowed_eq_true.mp (ndAllowed_SkyCoordConfig b))
      (keysAllowed_eq_true.mp (ndAllowed_SkyCoordConfig o))
  have g0 := getField_overlay_leaf
    (merged_lookup_leaf hnd (lk_nd_SkyCoordConfig_frame b) (lk_nd_SkyCoordConfig_frame o) (fun x => ne_map_opt_frame x))
    (opt_frame_rt b.frame) (opt_frame_rt o.frame)
  have g1 := getField_overlay_leaf
    (merged_lookup_leaf hnd (lk_nd_SkyCoordConfig_lon b) (lk_nd_SkyCoordConfig_lon o) (fun x => ne_map_opt_angle x))
    (opt_angle_rt b.lon hblon) (opt_angle_rt o.lon holon)
  have g2 := getField_overlay_leaf
    (merged_lookup_leaf hnd (lk_nd_SkyCoordConfig_lat b) (lk_nd_SkyCoordConfig_lat o) (fun x => ne_map_opt_angle x))
    (opt_angle_rt b.lat hblat) (opt_angle_rt o.lat holat)
  simp only [SkyCoordConfig.fromDict]
  rw [if_pos hk]
  rw [g0]
  simp only [excBindOk]
  rw [g1]
  simp only [excBindOk]
  rw [g2]
  simp only [excBindOk]
  rfl

theorem rtNd_SkyCoordConfig (c : SkyCoordConfig) (h : c.Wf = true) :
    SkyCoordConfig.fromDict (.map c.dictND) = .ok c := by
  have hm := mergeOk_SkyCoordConfig {} c rfl h
  rw [show SkyCoordConfig.dictND {} = [] from rfl,
    deepUpdate_nil c.dictND (ndNodup_SkyCoordConfig c)] at hm
  rw [hm, smLeft_SkyCoordConfig c]

theorem lk_nd_SpatialCircleConfig_frame (c : SpatialCircleConfig) :
    lookupKey c.dictND "frame" =
      (if c.frame = none then none else some (encodeOpt FrameEnum.encode c.frame)) := by
  simp only [SpatialCircleConfig.dictND, ndField]
  split_ifs <;> rfl

theorem lk_nd_SpatialCircleConfig_lon (c : SpatialCircleConfig) :
    lookupKey c.dictND "lon" =
      (if c.lon = none then none else some (encodeOpt AngleType.encode c.lon)) := by
  simp only [SpatialCircleConfig.dictND, ndField]
  split_ifs <;> rfl

theorem lk_nd_SpatialCircleConfig_lat (c : SpatialCircleConfig) :
    lookupKey c.dictND "lat" =
      (if c.lat = none then none else some (encodeOpt AngleType.encode c.lat)) := by
  simp only [SpatialCircleConfig.dictND, ndField]
  split_ifs <;> rfl

theorem lk_nd_SpatialCircleConfig_radius (c : SpatialCircleConfig) :
    lookupKey c.dictND "radius" =
      (if c.radius = none then none else some (encodeOpt AngleType.encode c.radius)) := by
  simp only [SpatialCircleConfig.dictND, ndField]
  split_ifs <;> rfl

theorem ndNodup_SpatialCircleConfig (c : SpatialCircleConfig) : keyNodup c.dictND := by
  simp only [SpatialCircleConfig.dictND, ndField, keyNodup]
  split_ifs <;> simp

theorem ndAllowed_SpatialCircleConfig (c : SpatialCircleConfig) :
    keysAllowed c.dictND SpatialCircleConfig.keys = true := by
  simp only [SpatialCircleConfig.dictND, ndField, keysAllowed, SpatialCircleConfig.keys]
  split_ifs <;> simp

theorem smLeft_SpatialCircleConfig (o : SpatialCircleConfig) : SpatialCircleConfig.specMerge {} o = o := by
  obtain ⟨x0, x1, x2, x3⟩ := o
  simp only [SpatialCircleConfig.specMerge, SpatialCircleConfig.mk.injEq]
  refine ⟨?_, ?_, ?_, ?_⟩ <;> (try split_ifs) <;> simp_all

theorem rtFull_SpatialCircleConfig (c : SpatialCircleConfig) (h : c.Wf = true) :
    SpatialCircleConfig.fromDict c.toDict = .ok c := by
  simp only [SpatialCircleConfig.Wf, Bool.and_eq_true] at h
  obtain ⟨⟨hlon, hlat⟩, hradius⟩ := h
  have hk : keysAllowed c.toPairs SpatialCircleConfig.keys = true := rfl
  have l0 : lookupKey c.toPairs "frame" = some (encodeOpt FrameEnum.encode c.frame) := rfl
  have l1 : lookupKey c.toPairs "lon" = some (encodeOpt AngleType.encode c.lon) := rfl
  have l2 : lookupKey c.toPairs "lat" = some (encodeOpt AngleType.encode c.lat) := rfl
  have l3 : lookupKey c.toPairs "radius" = some (encodeOpt AngleType.encode c.radius) := rfl
  show SpatialCircleConfig.fromDict (.map c.toPairs) = .ok c
  simp only [SpatialCircleConfig.fromDict]
  rw [if_pos hk]
  rw [getField_some l0, opt_frame_rt c.frame]
  simp only [excBindOk]
  rw [getField_some l1, opt_angle_rt c.lon hlon]
  simp only [excBindOk]
  rw [getField_some l2, opt_angle_rt c.lat hlat]
  simp only [excBindOk]
  rw [getField_some l3, opt_angle_rt c.radius hradius]
  simp only [excBindOk]

theorem mergeOk_SpatialCircleConfig (b o : SpatialCircleConfig) (hb : b.Wf = true) (ho : o.Wf = true) :
    SpatialCircleConfig.fromDict (.map (deepUpdate b.dictND o.dictND)) = .ok (b.specMerge o) := by
  simp only [SpatialCircleConfig.Wf, Bool.and_eq_true] at hb ho
  obtain ⟨⟨hblon, hblat⟩, hbradius⟩ := hb
  obtain ⟨⟨holon, holat⟩, horadius⟩ := ho
  have hnd := ndNodup_SpatialCircleConfig o
  have hk : keysAllowed (deepUpdate b.dictND o.dictND) SpatialCircleConfig.keys = true := by
    rw [keysAllowed_eq_true]
    exact deepUpdate_keys o.dictND b.dictND
      (keysAllowed_eq_true.mp (ndAllowed_SpatialCircleConfig b))
      (keysAllowed_eq_true.mp (ndAllowed_SpatialCircleConfig o))
  have g0 := getField_overlay_leaf
    (merged_lookup_leaf hnd (lk_nd_SpatialCircleConfig_frame b) (lk_nd_SpatialCircleConfig_frame o) (fun x => ne_map_opt_frame x))
    (opt_frame_rt b.frame) (opt_frame_rt o.frame)
  have g1 := getField_overlay_leaf
    (merged_lookup_leaf hnd (lk_nd_SpatialCircleConfig_lon b) (lk_nd_SpatialCircleConfig_lon o) (fun x => ne_map_opt_angle x))
    (opt_angle_rt b.lon hblon) (opt_angle_rt o.lon holon)
  have g2 := getField_overlay_leaf
    (merged_lookup_leaf hnd (lk_nd_SpatialCircleConfig_lat b) (lk_nd_SpatialCircleConfig_lat o) (fun x => ne_map_opt_angle x))
    (opt_angle_rt b.lat hblat) (opt_angle_rt o.lat holat)
  have g3 := getField_overlay_leaf
    (merged_lookup_leaf hnd (lk_nd_SpatialCircleConfig_radius b) (lk_nd_SpatialCircleConfig_radius o) (fun x => ne_map_opt_angle x))
    (opt_angle_rt b.radius hbradius) (opt_angle_rt o.radius horadius)
  simp only [SpatialCircleConfig.fromDict]
  rw [if_pos hk]
  rw [g0]
  simp only [excBindOk]
  rw [g1]
  simp only [excBindOk]
  rw [g2]
  simp only [excBindOk]
  rw [g3]
  simp only [excBindOk]
  rfl

theorem rtNd_SpatialCircleConfig (c : SpatialCircleConfig) (h : c.Wf = true) :
    SpatialCircleConfig.fromDict (.map c.dictND) = .ok c := by
  have hm := mergeOk_SpatialCircleConfig {} c rfl h
  rw [show SpatialCircleConfig.dictND {} = [] from rfl,
    deepUpdate_nil c.dictND (ndNodup_SpatialCircleConfig c)] at hm
  rw [hm, smLeft_SpatialCircleConfig c]

theorem lk_nd_EnergyAxisConfig_min (c : EnergyAxisConfig) :
    lookupKey c.dictND "min" =
      (if c.min = ⟨"0.1", "TeV"⟩ then none else some (EnergyType.encode c.min)) := by
  simp only [EnergyAxisConfig.dictND, ndField]
  split_ifs <;> rfl

theorem lk_nd_EnergyAxisConfig_max (c : EnergyAxisConfig) :
    lookupKey c.dictND "max" =
      (if c.max = ⟨"10", "TeV"⟩ then none else some (EnergyType.encode c.max)) := by
  simp only [EnergyAxisConfig.dictND, ndField]
  split_ifs <;> rfl

theorem lk_nd_EnergyAxisConfig_nbins (c : EnergyAxisConfig) :
    lookupKey c.dictND "nbins" =
      (if c.nbins = 30 then none else some (encodeInt c.nbins)) := by
  simp only [EnergyAxisConfig.dictND, ndField]
  split_ifs <;> rfl

theorem ndNodup_EnergyAxisConfig (c : EnergyAxisConfig) : keyNodup c.dictND := by
  simp only [EnergyAxisConfig.dictND, ndField, keyNodup]
  split_ifs <;> simp

theorem ndAllowed_EnergyAxisConfig (c : EnergyAxisConfig) :
    keysAllowed c.dictND EnergyAxisConfig.keys = true := by
  simp only [EnergyAxisConfig.dictND, ndField, keysAllowed, EnergyAxisConfig.keys]
  split_ifs <;> simp

theorem smLeft_EnergyAxisConfig (o : EnergyAxisConfig) : EnergyAxisConfig.specMerge {} o = o := by
  obtain ⟨x0, x1, x2⟩ := o
  simp only [EnergyAxisConfig.specMerge, EnergyAxisConfig.mk.injEq]
  refine ⟨?_, ?_, ?_⟩ <;> (try split_ifs) <;> simp_all

theorem rtFull_EnergyAxisConfig (c : EnergyAxisConfig) (h : c.Wf = true) :
    EnergyAxisConfig.fromDict c.toDict = .ok c := by
  simp only [EnergyAxisConfig.Wf, Bool.and_eq_true] at h
  obtain ⟨hmin, hmax⟩ := h
  have hk : keysAllowed c.toPairs EnergyAxisConfig.keys = true := rfl
  have l0 : lookupKey c.toPairs "min" = some (EnergyType.encode c.min) := rfl
  have l1 : lookupKey c.toPairs "max" = some (EnergyType.encode c.max) := rfl
  have l2 : lookupKey c.toPairs "nbins" = some (encodeInt c.nbins) := rfl
  show EnergyAxisConfig.fromDict (.map c.toPairs) = .ok c
  simp only [EnergyAxisConfig.fromDict]
  rw [if_pos hk]
  rw [getField_some l0, energyType_rt c.min hmin]
  simp only [excBindOk]
  rw [getField_some l1, energyType_rt c.max hmax]
  simp only [excBindOk]
  rw [getField_some l2, int_rt c.nbins]
  simp only [excBindOk]

theorem mergeOk_EnergyAxisConfig (b o : EnergyAxisConfig) (hb : b.Wf = true) (ho : o.Wf = true) :
    EnergyAxisConfig.fromDict (.map (deepUpdate b.dictND o.dictND)) = .ok (b.specMerge o) := by
  simp only [EnergyAxisConfig.Wf, Bool.and_eq_true] at hb ho
  obtain ⟨hbmin, hbmax⟩ := hb
  obtain ⟨homin, homax⟩ := ho
  have hnd := ndNodup_EnergyAxisConfig o
  have hk : keysAllowed (deepUpdate b.dictND o.dictND) EnergyAxisConfig.keys = true := by
    rw [keysAllowed_eq_true]
    exact deepUpdate_keys o.dictND b.dictND
      (keysAllowed_eq_true.mp (ndAllowed_EnergyAxisConfig b))
      (keysAllowed_eq_true.mp (ndAllowed_EnergyAxisConfig o))
  have g0 := getField_overlay_leaf
    (merged_lookup_leaf hnd (lk_nd_EnergyAxisConfig_min b) (lk_nd_EnergyAxisConfig_min o) (fun x => ne_map_energy x))
    (energyType_rt b.min hbmin) (energyType_rt o.min homin)
  have g1 := getField_overlay_leaf
    (merged_lookup_leaf hnd (lk_nd_EnergyAxisConfig_max b) (lk_nd_EnergyAxisConfig_max o) (fun x => ne_map_energy x))
    (energyType_rt b.max hbmax) (energyType_rt o.max homax)
  have g2 := getField_overlay_leaf
    (merged_lookup_leaf hnd (lk_nd_EnergyAxisConfig_nbins b) (lk_nd_EnergyAxisConfig_nbins o) (fun x => ne_map_int x))
    (int_rt b.nbins) (int_rt o.nbins)
  simp only [EnergyAxisConfig.fromDict]
  rw [if_pos hk]
  rw [g0]
  simp only [excBindOk]
  rw [g1]
  simp only [excBindOk]
  rw [g2]
  simp only [excBindOk]
  rfl

theorem rtNd_EnergyAxisConfig (c : EnergyAxisConfig) (h : c.Wf = true) :
    EnergyAxisConfig.fromDict (.map c.dictND) = .ok c := by
  have hm := mergeOk_EnergyAxisConfig {} c rfl h
  rw [show EnergyAxisConfig.dictND {} = [] from rfl,
    deepUpdate_nil c.dictND (ndNodup_EnergyAxisConfig c)] at hm
  rw [hm, smLeft_EnergyAxisConfig c]

theorem lk_nd_EnergyRangeConfig_min (c : EnergyRangeConfig) :
    lookupKey c.dictND "min" =
      (if c.min = ⟨"0.1", "TeV"⟩ then none else some (EnergyType.encode c.min)) := by
  simp only [EnergyRangeConfig.dictND, ndField]
  split_ifs <;> rfl

theorem lk_nd_EnergyRangeConfig_max (c : EnergyRangeConfig) :
    lookupKey c.dictND "max" =
      (if c.max = ⟨"10", "TeV"⟩ then none else some (EnergyType.encode c.max)) := by
  simp only [EnergyRangeConfig.dictND, ndField]
  split_ifs <;> rfl

theorem ndNodup_EnergyRangeConfig (c : EnergyRangeConfig) : keyNodup c.dictND := by
  simp only [EnergyRangeConfig.dictND, ndField, keyNodup]
  split_ifs <;> simp

theorem ndAllowed_EnergyRangeConfig (c : EnergyRangeConfig) :
    keysAllowed c.dictND EnergyRangeConfig.keys = true := by
  simp only [EnergyRangeConfig.dictND, ndField, keysAllowed, EnergyRangeConfig.keys]
  split_ifs <;> simp

theorem smLeft_EnergyRangeConfig (o : EnergyRangeConfig) : EnergyRangeConfig.specMerge {} o = o := by
  obtain ⟨x0, x1⟩ := o
  simp only [EnergyRangeConfig.specMerge, EnergyRangeConfig.mk.injEq]
  refine ⟨?_, ?_⟩ <;> (try split_ifs) <;> simp_all

theorem rtFull_EnergyRangeConfig (c : EnergyRangeConfig) (h : c.Wf = true) :
    EnergyRangeConfig.fromDict c.toDict = .ok c := by
  simp only [EnergyRangeConfig.Wf, Bool.and_eq_true] at h
  obtain ⟨hmin, hmax⟩ := h
  have hk : keysAllowed c.toPairs EnergyRangeConfig.keys = true := rfl
  have l0 : lookupKey c.toPairs "min" = some (EnergyType.encode c.min) := rfl
  have l1 : lookupKey c.toPairs "max" = some (EnergyType.encode c.max) := rfl
  show EnergyRangeConfig.fromDict (.map c.toPairs) = .ok c
  simp only [EnergyRangeConfig.fromDict]
  rw [if_pos hk]
  rw [getField_some l0, energyType_rt c.min hmin]
  simp only [excBindOk]
  rw [getField_some l1, energyType_rt c.max hmax]
  simp only [excBindOk]

theorem mergeOk_EnergyRangeConfig (b o : EnergyRangeConfig) (hb : b.Wf = true) (ho : o.Wf = true) :
    EnergyRangeConfig.fromDict (.map (deepUpdate b.dictND o.dictND)) = .ok (b.specMerge o) := by
  simp only [EnergyRangeConfig.Wf, Bool.and_eq_true] at hb ho
  obtain ⟨hbmin, hbmax⟩ := hb
  obtain ⟨homin, homax⟩ := ho
  have hnd := ndNodup_EnergyRangeConfig o
  have hk : keysAllowed (deepUpdate b.dictND o.dictND) EnergyRangeConfig.keys = true := by
    rw [keysAllowed_eq_true]
    exact deepUpdate_keys o.dictND b.dictND
      (keysAllowed_eq_true.mp (ndAllowed_EnergyRangeConfig b))
      (keysAllowed_eq_true.mp (ndAllowed_EnergyRangeConfig o))
  have g0 := getField_overlay_leaf
    (merged_lookup_leaf hnd (lk_nd_EnergyRangeConfig_min b) (lk_nd_EnergyRangeConfig_min o) (fun x => ne_map_energy x))
    (energyType_rt b.min hbmin) (energyType_rt o.min homin)
  have g1 := getField_overlay_leaf
    (merged_lookup_leaf hnd (lk_nd_EnergyRangeConfig_max b) (lk_nd_EnergyRangeConfig_max o) (fun x => ne_map_energy x))
    (energyType_rt b.max hbmax) (energyType_rt o.max homax)
  simp only [EnergyRangeConfig.fromDict]
  rw [if_pos hk]
  rw [g0]
  simp only [excBindOk]
  rw [g1]
  simp only [excBindOk]
  rfl

theorem rtNd_EnergyRangeConfig (c : EnergyRangeConfig) (h : c.Wf = true) :
    EnergyRangeConfig.fromDict (.map c.dictND) = .ok c := by
  have hm := mergeOk_EnergyRangeConfig {} c rfl h
  rw [show EnergyRangeConfig.dictND {} = [] from rfl,
    deepUpdate_nil c.dictND (ndNodup_EnergyRangeConfig c)] at hm
  rw [hm, smLeft_EnergyRangeConfig c]

theorem lk_nd_TimeRangeConfig_start (c : TimeRangeConfig) :
    lookupKey c.dictND "start" =
      (if c.start = none then none else some (encodeOpt TimeType.encode c.start)) := by
  simp only [TimeRangeConfig.dictND, ndField]
  split_ifs <;> rfl

theorem lk_nd_TimeRangeConfig_stop (c : TimeRangeConfig) :
    lookupKey c.dictND "stop" =
      (if c.stop = none then none else some (encodeOpt TimeType.encode c.stop)) := by
  simp only [TimeRangeConfig.dictND, ndField]
  split_ifs <;> rfl

theorem ndNodup_TimeRangeConfig (c : TimeRangeConfig) : keyNodup c.dictND := by
  simp only [TimeRangeConfig.dictND, ndField, keyNodup]
  split_ifs <;> simp

theorem ndAllowed_TimeRangeConfig (c : TimeRangeConfig) :
    keysAllowed c.dictND TimeRangeConfig.keys = true := by
  simp only [TimeRangeConfig.dictND, ndField, keysAllowed, TimeRangeConfig.keys]
  split_ifs <;> simp

theorem smLeft_TimeRangeConfig (o : TimeRangeConfig) : TimeRangeConfig.specMerge {} o = o := by
  obtain ⟨x0, x1⟩ := o
  simp only [TimeRangeConfig.specMerge, TimeRangeConfig.mk.injEq]
  refine ⟨?_, ?_⟩ <;> (try split_ifs) <;> simp_all

theorem rtFull_TimeRangeConfig (c : TimeRangeConfig) (h : c.Wf = true) :
    TimeRangeConfig.fromDict c.toDict = .ok c := by
  have hk : keysAllowed c.toPairs TimeRangeConfig.keys = true := rfl
  have l0 : lookupKey c.toPairs "start" = some (encodeOpt TimeType.encode c.start) := rfl
  have l1 : lookupKey c.toPairs "stop" = some (encodeOpt TimeType.encode c.stop) := rfl
  show TimeRangeConfig.fromDict (.map c.toPairs) = .ok c
  simp only [TimeRangeConfig.fromDict]
  rw [if_pos hk]
  rw [getField_some l0, opt_time_rt c.start]
  simp only [excBindOk]
  rw [getField_some l1, opt_time_rt c.stop]
  simp only [excBindOk]

theorem mergeOk_TimeRangeConfig (b o : TimeRangeConfig) (hb : b.Wf = true) (ho : o.Wf = true) :
    TimeRangeConfig.fromDict (.map (deepUpdate b.dictND o.dictND)) = .ok (b.specMerge o) := by
  have hnd := ndNodup_TimeRangeConfig o
  have hk : keysAllowed (deepUpdate b.dictND o.dictND) TimeRangeConfig.keys = true := by
    rw [keysAllowed_eq_true]
    exact deepUpdate_keys o.dictND b.dictND
      (keysAllowed_eq_true.mp (ndAllowed_TimeRangeConfig b))
      (keysAllowed_eq_true.mp (ndAllowed_TimeRangeConfig o))
  have g0 := getField_overlay_leaf
    (merged_lookup_leaf hnd (lk_nd_TimeRangeConfig_start b) (lk_nd_TimeRangeConfig_start o) (fun x => ne_map_opt_time x))
    (opt_time_rt b.start) (opt_time_rt o.start)
  have g1 := getField_overlay_leaf
    (merged_lookup_leaf hnd (lk_nd_TimeRangeConfig_stop b) (lk_nd_TimeRangeConfig_stop o) (fun x => ne_map_opt_time x))
    (opt_time_rt b.stop) (opt_time_rt o.stop)
  simp only [TimeRangeConfig.fromDict]
  rw [if_pos hk]
  rw [g0]
  simp only [excBindOk]
  rw [g1]
  simp only [excBindOk]
  rfl

theorem rtNd_TimeRangeConfig (c : TimeRangeConfig) (h : c.Wf = true) :
    TimeRangeConfig.fromDict (.map c.dictND) = .ok c := by
  have hm := mergeOk_TimeRangeConfig {} c rfl h
  rw [show TimeRangeConfig.dictND {} = [] from rfl,
    deepUpdate_nil c.dictND (ndNodup_TimeRangeConfig c)] at hm
  rw [hm, smLeft_TimeRangeConfig c]

theorem lk_nd_FovConfig_width (c : FovConfig) :
    lookupKey c.dictND "width" =
      (if c.width = ⟨"5", "deg"⟩ then none else some (AngleType.encode c.width)) := by
  simp only [FovConfig.dictND, ndField]
  split_ifs <;> rfl

theorem lk_nd_FovConfig_height (c : FovConfig) :
    lookupKey c.dictND "height" =
      (if c.height = ⟨"5", "deg"⟩ then none else some (AngleType.encode c.height)) := by
  simp only [FovConfig.dictND, ndField]
  split_ifs <;> rfl

theorem ndNodup_FovConfig (c : FovConfig) : keyNodup c.dictND := by
  simp only [FovConfig.dictND, ndField, keyNodup]
  split_ifs <;> simp

theorem ndAllowed_FovConfig (c : FovConfig) :
    keysAllowed c.dictND FovConfig.keys = true := by
  simp only [FovConfig.dictND, ndField, keysAllowed, FovConfig.keys]
  split_ifs <;> simp

theorem smLeft_FovConfig (o : FovConfig) : FovConfig.specMerge {} o = o := by
  obtain ⟨x0, x1⟩ := o
  simp only [FovConfig.specMerge, FovConfig.mk.injEq]
  refine ⟨?_, ?_⟩ <;> (try split_ifs) <;> simp_all

theorem rtFull_FovConfig (c : FovConfig) (h : c.Wf = true) :
    FovConfig.fromDict c.toDict = .ok c := by
  simp only [FovConfig.Wf, Bool.and_eq_true] at h
  obtain ⟨hwidth, hheight⟩ := h
  have hk : keysAllowed c.toPairs FovConfig.keys = true := rfl
  have l0 : lookupKey c.toPairs "width" = some (AngleType.encode c.width) := rfl
  have l1 : lookupKey c.toPairs "height" = some (AngleType.encode c.height) := rfl
  show FovConfig.fromDict (.map c.toPairs) = .ok c
  simp only [FovConfig.fromDict]
  rw [if_pos hk]
  rw [getField_some l0, angleType_rt c.width hwidth]
  simp only [excBindOk]
  rw [getField_some l1, angleType_rt c.height hheight]
  simp only [excBindOk]

theorem mergeOk_FovConfig (b o : FovConfig) (hb : b.Wf = true) (ho : o.Wf = true) :
    FovConfig.fromDict (.map (deepUpdate b.dictND o.dictND)) = .ok (b.specMerge o) := by
  simp only [FovConfig.Wf, Bool.and_eq_true] at hb ho
  obtain ⟨hbwidth, hbheight⟩ := hb
  obtain ⟨howidth, hoheight⟩ := ho
  have hnd := ndNodup_FovConfig o
  have hk : keysAllowed (deepUpdate b.dictND o.dictND) FovConfig.keys = true := by
    rw [keysAllowed_eq_true]
    exact deepUpdate_keys o.dictND b.dictND
      (keysAllowed_eq_true.mp (ndAllowed_FovConfig b))
      (keysAllowed_eq_true.mp (ndAllowed_FovConfig o))
  have g0 := getField_overlay_leaf
    (merged_lookup_leaf hnd (lk_nd_FovConfig_width b) (lk_nd_FovConfig_width o) (fun x => ne_map_angle x))
    (angleType_rt b.width hbwidth) (angleType_rt o.width howidth)
  have g1 := getField_overlay_leaf
    (merged_lookup_leaf hnd (lk_nd_FovConfig_height b) (lk_nd_FovConfig_height o) (fun x => ne_map_angle x))
    (angleType_rt b.height hbheight) (angleType_rt o.height hoheight)
  simp only [FovConfig.fromDict]
  rw [if_pos hk]
  rw [g0]
  simp only [excBindOk]
  rw [g1]
  simp only [excBindOk]
  rfl

theorem rtNd_FovConfig (c : FovConfig) (h : c.Wf = true) :
    FovConfig.fromDict (.map c.dictND) = .ok c := by
  have hm := mergeOk_FovConfig {} c rfl h
  rw [show FovConfig.dictND {} = [] from rfl,
    deepUpdate_nil c.dictND (ndNodup_FovConfig c)] at hm
  rw [hm, smLeft_FovConfig c]

theorem lk_nd_SelectionConfig_offset_max (c : SelectionConfig) :
    lookupKey c.dictND "offset_max" =
      (if c.offset_max = ⟨"2.5", "deg"⟩ then none else some (AngleType.encode c.offset_max)) := by
  simp only [SelectionConfig.dictND, ndField]
  split_ifs <;> rfl

theorem ndNodup_SelectionConfig (c : SelectionConfig) : keyNodup c.dictND := by
  simp only [SelectionConfig.dictND, ndField, keyNodup]
  split_ifs <;> simp

theorem ndAllowed_SelectionConfig (c : SelectionConfig) :
    keysAllowed c.dictND SelectionConfig.keys = true := by
  simp only [SelectionConfig.dictND, ndField, keysAllowed, SelectionConfig.keys]
  split_ifs <;> simp

theorem smLeft_SelectionConfig (o : SelectionConfig) : SelectionConfig.specMerge {} o = o := by
  obtain ⟨x0⟩ := o
  simp only [SelectionConfig.specMerge, SelectionConfig.mk.injEq]
  (try split_ifs) <;> simp_all

theorem rtFull_SelectionConfig (c : SelectionConfig) (h : c.Wf = true) :
    SelectionConfig.fromDict c.toDict = .ok c := by
  simp only [SelectionConfig.Wf] at h
  have hoffset_max := h
  have hk : keysAllowed c.toPairs SelectionConfig.keys = true := rfl
  have l0 : lookupKey c.toPairs "offset_max" = some (AngleType.encode c.offset_max) := rfl
  show SelectionConfig.fromDict (.map c.toPairs) = .ok c
  simp only [SelectionConfig.fromDict]
  rw [if_pos hk]
  rw [getField_some l0, angleType_rt c.offset_max hoffset_max]
  simp only [excBindOk]

theorem mergeOk_SelectionConfig (b o : SelectionConfig) (hb : b.Wf = true) (ho : o.Wf = true) :
    SelectionConfig.fromDict (.map (deepUpdate b.dictND o.dictND)) = .ok (b.specMerge o) := by
  simp only [SelectionConfig.Wf] at hb ho
  have hboffset_max := hb
  have hooffset_max := ho
  have hnd := ndNodup_SelectionConfig o
  have hk : keysAllowed (deepUpdate b.dictND o.dictND) SelectionConfig.keys = true := by
    rw [keysAllowed_eq_true]
    exact deepUpdate_keys o.dictND b.dictND
      (keysAllowed_eq_true.mp (ndAllowed_SelectionConfig b))
      (keysAllowed_eq_true.mp (ndAllowed_SelectionConfig o))
  have g0 := getField_overlay_leaf
    (merged_lookup_leaf hnd (lk_nd_SelectionConfig_offset_max b) (lk_nd_SelectionConfig_offset_max o) (fun x => ne_map_angle x))
    (angleType_rt b.offset_max hboffset_max) (angleType_rt o.offset_max hooffset_max)
  simp only [SelectionConfig.fromDict]
  rw [if_pos hk]
  rw [g0]
  simp only [excBindOk]
  rfl

theorem rtNd_SelectionConfig (c : SelectionConfig) (h : c.Wf = true) :
    SelectionConfig.fromDict (.map c.dictND) = .ok c := by
  have hm := mergeOk_SelectionConfig {} c rfl h
  rw [show SelectionConfig.dictND {} = [] from rfl,
    deepUpdate_nil c.dictND (ndNodup_SelectionConfig c)] at hm
  rw [hm, smLeft_SelectionConfig c]

theorem lk_nd_BackgroundConfig_method (c : BackgroundConfig) :
    lookupKey c.dictND "method" =
      (if c.method = BackgroundMethodEnum.reflected then none else some (BackgroundMethodEnum.encode c.method)) := by
  simp only [BackgroundConfig.dictND, ndField]
  split_ifs <;> rfl

theorem lk_nd_BackgroundConfig_exclusion (c : BackgroundConfig) :
    lookupKey c.dictND "exclusion" =
      (if c.exclusion = none then none else some (encodeOpt encodeStr c.exclusion)) := by
  simp only [BackgroundConfig.dictND, ndField]
  split_ifs <;> rfl

theorem ndNodup_BackgroundConfig (c : BackgroundConfig) : keyNodup c.dictND := by
  simp only [BackgroundConfig.dictND, ndField, keyNodup]
  split_ifs <;> simp

theorem ndAllowed_BackgroundConfig (c : BackgroundConfig) :
    keysAllowed c.dictND BackgroundConfig.keys = true := by
  simp only [BackgroundConfig.dictND, ndField, keysAllowed, BackgroundConfig.keys]
  split_ifs <;> simp

theorem smLeft_BackgroundConfig (o : BackgroundConfig) : BackgroundConfig.specMerge {} o = o := by
  obtain ⟨x0, x1⟩ := o
  simp only [BackgroundConfig.specMerge, BackgroundConfig.mk.injEq]
  refine ⟨?_, ?_⟩ <;> (try split_ifs) <;> simp_all

theorem rtFull_BackgroundConfig (c : BackgroundConfig) (h : c.Wf = true) :
    BackgroundConfig.fromDict c.toDict = .ok c := by
  have hk : keysAllowed c.toPairs BackgroundConfig.keys = true := rfl
  have l0 : lookupKey c.toPairs "method" = some (BackgroundMethodEnum.encode c.method) := rfl
  have l1 : lookupKey c.toPairs "exclusion" = some (encodeOpt encodeStr c.exclusion) := rfl
  show BackgroundConfig.fromDict (.map c.toPairs) = .ok c
  simp only [BackgroundConfig.fromDict]
  rw [if_pos hk]
  rw [getField_some l0, backgroundMethodEnum_rt c.method]
  simp only [excBindOk]
  rw [getField_some l1, opt_str_rt c.exclusion]
  simp only [excBindOk]

theorem mergeOk_BackgroundConfig (b o : BackgroundConfig) (hb : b.Wf = true) (ho : o.Wf = true) :
    BackgroundConfig.fromDict (.map (deepUpdate b.dictND o.dictND)) = .ok (b.specMerge o) := by
  have hnd := ndNodup_BackgroundConfig o
  have hk : keysAllowed (deepUpdate b.dictND o.dictND) BackgroundConfig.keys = true := by
    rw [keysAllowed_eq_true]
    exact deepUpdate_keys o.dictND b.dictND
      (keysAllowed_eq_true.mp (ndAllowed_BackgroundConfig b))
      (keysAllowed_eq_true.mp (ndAllowed_BackgroundConfig o))
  have g0 := getField_overlay_leaf
    (merged_lookup_leaf hnd (lk_nd_BackgroundConfig_method b) (lk_nd_BackgroundConfig_method o) (fun x => ne_map_bme x))
    (backgroundMethodEnum_rt b.method) (backgroundMethodEnum_rt o.method)
  have g1 := getField_overlay_leaf
    (merged_lookup_leaf hnd (lk_nd_BackgroundConfig_exclusion b) (lk_nd_BackgroundConfig_exclusion o) (fun x => ne_map_opt_str x))
    (opt_str_rt b.exclusion) (opt_str_rt o.exclusion)
  simp only [BackgroundConfig.fromDict]
  rw [if_pos hk]
  rw [g0]
  simp only [excBindOk]
  rw [g1]
  simp only [excBindOk]
  rfl

theorem rtNd_BackgroundConfig (c : BackgroundConfig) (h : c.Wf = true) :
    BackgroundConfig.fromDict (.map c.dictND) = .ok c := by
  have hm := mergeOk_BackgroundConfig {} c rfl h
  rw [show BackgroundConfig.dictND {} = [] from rfl,
    deepUpdate_nil c.dictND (ndNodup_BackgroundConfig c)] at hm
  rw [hm, smLeft_BackgroundConfig c]

theorem lk_nd_LogConfig_level (c : LogConfig) :
    lookupKey c.dictND "level" =
      (if c.level = "info" then none else some (encodeStr c.level)) := by
  simp only [LogConfig.dictND, ndField]
  split_ifs <;> rfl

theorem lk_nd_LogConfig_filename (c : LogConfig) :
    lookupKey c.dictND "filename" =
      (if c.filename = none then none else some (encodeOpt encodeStr c.filename)) := by
  simp only [LogConfig.dictND, ndField]
  split_ifs <;> rfl

theorem lk_nd_LogConfig_filemode (c : LogConfig) :
    lookupKey c.dictND "filemode" =
      (if c.filemode = none then none else some (encodeOpt encodeStr c.filemode)) := by
  simp only [LogConfig.dictND, ndField]
  split_ifs <;> rfl

theorem lk_nd_LogConfig_format (c : LogConfig) :
    lookupKey c.dictND "format" =
      (if c.format = none then none else some (encodeOpt encodeStr c.format)) := by
  simp only [LogConfig.dictND, ndField]
  split_ifs <;> rfl

theorem lk_nd_LogConfig_datefmt (c : LogConfig) :
    lookupKey c.dictND "datefmt" =
      (if c.datefmt = none then none else some (encodeOpt encodeStr c.datefmt)) := by
  simp only [LogConfig.dictND, ndField]
  split_ifs <;> rfl

theorem ndNodup_LogConfig (c : LogConfig) : keyNodup c.dictND := by
  simp only [LogConfig.dictND, ndField, keyNodup]
  split_ifs <;> simp

theorem ndAllowed_LogConfig (c : LogConfig) :
    keysAllowed c.dictND LogConfig.keys = true := by
  simp only [LogConfig.dictND, ndField, keysAllowed, LogConfig.keys]
  split_ifs <;> simp

theorem smLeft_LogConfig (o : LogConfig) : LogConfig.specMerge {} o = o := by
  obtain ⟨x0, x1, x2, x3, x4⟩ := o
  simp only [LogConfig.specMerge, LogConfig.mk.injEq]
  refine ⟨?_, ?_, ?_, ?_, ?_⟩ <;> (try split_ifs) <;> simp_all

theorem rtFull_LogConfig (c : LogConfig) (h : c.Wf = true) :
    LogConfig.fromDict c.toDict = .ok c := by
  have hk : keysAllowed c.toPairs LogConfig.keys = true := rfl
  have l0 : lookupKey c.toPairs "level" = some (encodeStr c.level) := rfl
  have l1 : lookupKey c.toPairs "filename" = some (encodeOpt encodeStr c.filename) := rfl
  have l2 : lookupKey c.toPairs "filemode" = some (encodeOpt encodeStr c.filemode) := rfl
  have l3 : lookupKey c.toPairs "format" = some (encodeOpt encodeStr c.format) := rfl
  have l4 : lookupKey c.toPairs "datefmt" = some (encodeOpt encodeStr c.datefmt) := rfl
  show LogConfig.fromDict (.map c.toPairs) = .ok c
  simp only [LogConfig.fromDict]
  rw [if_pos hk]
  rw [getField_some l0, str_rt c.level]
  simp only [excBindOk]
  rw [getField_some l1, opt_str_rt c.filename]
  simp only [excBindOk]
  rw [getField_some l2, opt_str_rt c.filemode]
  simp only [excBindOk]
  rw [getField_some l3, opt_str_rt c.format]
  simp only [excBindOk]
  rw [getField_some l4, opt_str_rt c.datefmt]
  simp only [excBindOk]

theorem mergeOk_LogConfig (b o : LogConfig) (hb : b.Wf = true) (ho : o.Wf = true) :
    LogConfig.fromDict (.map (deepUpdate b.dictND o.dictND)) = .ok (b.specMerge o) := by
  have hnd := ndNodup_LogConfig o
  have hk : keysAllowed (deepUpdate b.dictND o.dictND) LogConfig.keys = true := by
    rw [keysAllowed_eq_true]
    exact deepUpdate_keys o.dictND b.dictND
      (keysAllowed_eq_true.mp (ndAllowed_LogConfig b))
      (keysAllowed_eq_true.mp (ndAllowed_LogConfig o))
  have g0 := getField_overlay_leaf
    (merged_lookup_leaf hnd (lk_nd_LogConfig_level b) (lk_nd_LogConfig_level o) (fun x => ne_map_str x))
    (str_rt b.level) (str_rt o.level)
  have g1 := getField_overlay_leaf
    (merged_lookup_leaf hnd (lk_nd_LogConfig_filename b) (lk_nd_LogConfig_filename o) (fun x => ne_map_opt_str x))
    (opt_str_rt b.filename) (opt_str_rt o.filename)
  have g2 := getField_overlay_leaf
    (merged_lookup_leaf hnd (lk_nd_LogConfig_filemode b) (lk_nd_LogConfig_filemode o) (fun x => ne_map_opt_str x))
    (opt_str_rt b.filemode) (opt_str_rt o.filemode)
  have g3 := getField_overlay_leaf
    (merged_lookup_leaf hnd (lk_nd_LogConfig_format b) (lk_nd_LogConfig_format o) (fun x => ne_map_opt_str x))
    (opt_str_rt b.format) (opt_str_rt o.format)
  have g4 := getField_overlay_leaf
    (merged_lookup_leaf hnd (lk_nd_LogConfig_datefmt b) (lk_nd_LogConfig_datefmt o) (fun x => ne_map_opt_str x))
    (opt_str_rt b.datefmt) (opt_str_rt o.datefmt)
  simp only [LogConfig.fromDict]
  rw [if_pos hk]
  rw [g0]
  simp only [excBindOk]
  rw [g1]
  simp only [excBindOk]
  rw [g2]
  simp only [excBindOk]
  rw [g3]
  simp only [excBindOk]
  rw [g4]
  simp only [excBindOk]
  rfl

theorem rtNd_LogConfig (c : LogConfig) (h : c.Wf = true) :
    LogConfig.fromDict (.map c.dictND) = .ok c := by
  have hm := mergeOk_LogConfig {} c rfl h
  rw [show LogConfig.dictND {} = [] from rfl,
    deepUpdate_nil c.dictND (ndNodup_LogConfig c)] at hm
  rw [hm, smLeft_LogConfig c]

theorem lk_nd_FluxPointsConfig_energy (c : FluxPointsConfig) :
    lookupKey c.dictND "energy" =
      (if c.energy = {} then none else some (YamlValue.map (EnergyAxisConfig.dictND c.energy))) := by
  simp only [FluxPointsConfig.dictND, ndField]
  split_ifs <;> rfl

theorem ndNodup_FluxPointsConfig (c : FluxPointsConfig) : keyNodup c.dictND := by
  simp only [FluxPointsConfig.dictND, ndField, keyNodup]
  split_ifs <;> simp

theorem ndAllowed_FluxPointsConfig (c : FluxPointsConfig) :
    keysAllowed c.dictND FluxPointsConfig.keys = true := by
  simp only [FluxPointsConfig.dictND, ndField, keysAllowed, FluxPointsConfig.keys]
  split_ifs <;> simp

theorem smLeft_FluxPointsConfig (o : FluxPointsConfig) : FluxPointsConfig.specMerge {} o = o := by
  obtain ⟨x0⟩ := o
  simp only [FluxPointsConfig.specMerge, FluxPointsConfig.mk.injEq]
  (try split_ifs) <;> simp_all [smLeft_EnergyAxisConfig]

theorem rtFull_FluxPointsConfig (c : FluxPointsConfig) (h : c.Wf = true) :
    FluxPointsConfig.fromDict c.toDict = .ok c := by
  simp only [FluxPointsConfig.Wf] at h
  have henergy := h
  have hk : keysAllowed c.toPairs FluxPointsConfig.keys = true := rfl
  have l0 : lookupKey c.toPairs "energy" = some (EnergyAxisConfig.toDict c.energy) := rfl
  show FluxPointsConfig.fromDict (.map c.toPairs) = .ok c
  simp only [FluxPointsConfig.fromDict]
  rw [if_pos hk]
  rw [getField_some l0, rtFull_EnergyAxisConfig c.energy henergy]
  simp only [excBindOk]

theorem mergeOk_FluxPointsConfig (b o : FluxPointsConfig) (hb : b.Wf = true) (ho : o.Wf = true) :
    FluxPointsConfig.fromDict (.map (deepUpdate b.dictND o.dictND)) = .ok (b.specMerge o) := by
  simp only [FluxPointsConfig.Wf] at hb ho
  have hbenergy := hb
  have hoenergy := ho
  have hnd := ndNodup_FluxPointsConfig o
  have hk : keysAllowed (deepUpdate b.dictND o.dictND) FluxPointsConfig.keys = true := by
    rw [keysAllowed_eq_true]
    exact deepUpdate_keys o.dictND b.dictND
      (keysAllowed_eq_true.mp (ndAllowed_FluxPointsConfig b))
      (keysAllowed_eq_true.mp (ndAllowed_FluxPointsConfig o))
  have g0 := getField_overlay_nested
    (merged_lookup_nested hnd (lk_nd_FluxPointsConfig_energy b) (lk_nd_FluxPointsConfig_energy o))
    (mergeOk_EnergyAxisConfig b.energy o.energy hbenergy hoenergy)
    (rtNd_EnergyAxisConfig b.energy hbenergy)
    (fun e2 => by
      rw [e2, smLeft_EnergyAxisConfig o.energy]
      exact rtNd_EnergyAxisConfig o.energy hoenergy)
  simp only [FluxPointsConfig.fromDict]
  rw [if_pos hk]
  rw [g0]
  simp only [excBindOk]
  rfl

theorem rtNd_FluxPointsConfig (c : FluxPointsConfig) (h : c.Wf = true) :
    FluxPointsConfig.fromDict (.map c.dictND) = .ok c := by
  have hm := mergeOk_FluxPointsConfig {} c rfl h
  rw [show FluxPointsConfig.dictND {} = [] from rfl,
    deepUpdate_nil c.dictND (ndNodup_FluxPointsConfig c)] at hm
  rw [hm, smLeft_FluxPointsConfig c]

theorem lk_nd_FitConfig_fit_range (c : FitConfig) :
    lookupKey c.dictND "fit_range" =
      (if c.fit_range = {} then none else some (YamlValue.map (EnergyRangeConfig.dictND c.fit_range))) := by
  simp only [FitConfig.dictND, ndField]
  split_ifs <;> rfl

theorem ndNodup_FitConfig (c : FitConfig) : keyNodup c.dictND := by
  simp only [FitConfig.dictND, ndField, keyNodup]
  split_ifs <;> simp

theorem ndAllowed_FitConfig (c : FitConfig) :
    keysAllowed c.dictND FitConfig.keys = true := by
  simp only [FitConfig.dictND, ndField, keysAllowed, FitConfig.keys]
  split_ifs <;> simp

theorem smLeft_FitConfig (o : FitConfig) : FitConfig.specMerge {} o = o := by
  obtain ⟨x0⟩ := o
  simp only [FitConfig.specMerge, FitConfig.mk.injEq]
  (try split_ifs) <;> simp_all [smLeft_EnergyRangeConfig]

theorem rtFull_FitConfig (c : FitConfig) (h : c.Wf = true) :
    FitConfig.fromDict c.toDict = .ok c := by
  simp only [FitConfig.Wf] at h
  have hfit_range := h
  have hk : keysAllowed c.toPairs FitConfig.keys = true := rfl
  have l0 : lookupKey c.toPairs "fit_range" = some (EnergyRangeConfig.toDict c.fit_range) := rfl
  show FitConfig.fromDict (.map c.toPairs) = .ok c
  simp only [FitConfig.fromDict]
  rw [if_pos hk]
  rw [getField_some l0, rtFull_EnergyRangeConfig c.fit_range hfit_range]
  simp only [excBindOk]

theorem mergeOk_FitConfig (b o : FitConfig) (hb : b.Wf = true) (ho : o.Wf = true) :
    FitConfig.fromDict (.map (deepUpdate b.dictND o.dictND)) = .ok (b.specMerge o) := by
  simp only [FitConfig.Wf] at hb ho
  have hbfit_range := hb
  have hofit_range := ho
  have hnd := ndNodup_FitConfig o
  have hk : keysAllowed (deepUpdate b.dictND o.dictND) FitConfig.keys = true := by
    rw [keysAllowed_eq_true]
    exact deepUpdate_keys o.dictND b.dictND
      (keysAllowed_eq_true.mp (ndAllowed_FitConfig b))
      (keysAllowed_eq_true.mp (ndAllowed_FitConfig o))
  have g0 := getField_overlay_nested
    (merged_lookup_nested hnd (lk_nd_FitConfig_fit_range b) (lk_nd_FitConfig_fit_range o))
    (mergeOk_EnergyRangeConfig b.fit_range o.fit_range hbfit_range hofit_range)
    (rtNd_EnergyRangeConfig b.fit_range hbfit_range)
    (fun e2 => by
      rw [e2, smLeft_EnergyRangeConfig o.fit_range]
      exact rtNd_EnergyRangeConfig o.fit_range hofit_range)
  simp only [FitConfig.fromDict]
  rw [if_pos hk]
  rw [g0]
  simp only [excBindOk]
  rfl

theorem rtNd_FitConfig (c : FitConfig) (h : c.Wf = true) :
    FitConfig.fromDict (.map c.dictND) = .ok c := by
  have hm := mergeOk_FitConfig {} c rfl h
  rw [show FitConfig.dictND {} = [] from rfl,
    deepUpdate_nil c.dictND (ndNodup_FitConfig c)] at hm
  rw [hm, smLeft_FitConfig c]

theorem lk_nd_EnergyAxesConfig_energy (c : EnergyAxesConfig) :
    lookupKey c.dictND "energy" =
      (if c.energy = {} then none else some (YamlValue.map (EnergyAxisConfig.dictND c.energy))) := by
  simp only [EnergyAxesConfig.dictND, ndField]
  split_ifs <;> rfl

theorem lk_nd_EnergyAxesConfig_energy_true (c : EnergyAxesConfig) :
    lookupKey c.dictND "energy_true" =
      (if c.energy_true = {} then none else some (YamlValue.map (EnergyAxisConfig.dictND c.energy_true))) := by
  simp only [EnergyAxesConfig.dictND, ndField]
  split_ifs <;> rfl

theorem ndNodup_EnergyAxesConfig (c : EnergyAxesConfig) : keyNodup c.dictND := by
  simp only [EnergyAxesConfig.dictND, ndField, keyNodup]
  split_ifs <;> simp

theorem ndAllowed_EnergyAxesConfig (c : EnergyAxesConfig) :
    keysAllowed c.dictND EnergyAxesConfig.keys = true := by
  simp only [EnergyAxesConfig.dictND, ndField, keysAllowed, EnergyAxesConfig.keys]
  split_ifs <;> simp

theorem smLeft_EnergyAxesConfig (o : EnergyAxesConfig) : EnergyAxesConfig.specMerge {} o = o := by
  obtain ⟨x0, x1⟩ := o
  simp only [EnergyAxesConfig.specMerge, EnergyAxesConfig.mk.injEq]
  refine ⟨?_, ?_⟩ <;> (try split_ifs) <;> simp_all [smLeft_EnergyAxisConfig]

theorem rtFull_EnergyAxesConfig (c : EnergyAxesConfig) (h : c.Wf = true) :
    EnergyAxesConfig.fromDict c.toDict = .ok c := by
  simp only [EnergyAxesConfig.Wf, Bool.and_eq_true] at h
  obtain ⟨henergy, henergy_true⟩ := h
  have hk : keysAllowed c.toPairs EnergyAxesConfig.keys = true := rfl
  have l0 : lookupKey c.toPairs "energy" = some (EnergyAxisConfig.toDict c.energy) := rfl
  have l1 : lookupKey c.toPairs "energy_true" = some (EnergyAxisConfig.toDict c.energy_true) := rfl
  show EnergyAxesConfig.fromDict (.map c.toPairs) = .ok c
  simp only [EnergyAxesConfig.fromDict]
  rw [if_pos hk]
  rw [getField_some l0, rtFull_EnergyAxisConfig c.energy henergy]
  simp only [excBindOk]
  rw [getField_some l1, rtFull_EnergyAxisConfig c.energy_true henergy_true]
  simp only [excBindOk]

theorem mergeOk_EnergyAxesConfig (b o : EnergyAxesConfig) (hb : b.Wf = true) (ho : o.Wf = true) :
    EnergyAxesConfig.fromDict (.map (deepUpdate b.dictND o.dictND)) = .ok (b.specMerge o) := by
  simp only [EnergyAxesConfig.Wf, Bool.and_eq_true] at hb ho
  obtain ⟨hbenergy, hbenergy_true⟩ := hb
  obtain ⟨hoenergy, hoenergy_true⟩ := ho
  have hnd := ndNodup_EnergyAxesConfig o
  have hk : keysAllowed (deepUpdate b.dictND o.dictND) EnergyAxesConfig.keys = true := by
    rw [keysAllowed_eq_true]
    exact deepUpdate_keys o.dictND b.dictND
      (keysAllowed_eq_true.mp (ndAllowed_EnergyAxesConfig b))
      (keysAllowed_eq_true.mp (ndAllowed_EnergyAxesConfig o))
  have g0 := getField_overlay_nested
    (merged_lookup_nested hnd (lk_nd_EnergyAxesConfig_energy b) (lk_nd_EnergyAxesConfig_energy o))
    (mergeOk_EnergyAxisConfig b.energy o.energy hbenergy hoenergy)
    (rtNd_EnergyAxisConfig b.energy hbenergy)
    (fun e2 => by
      rw [e2, smLeft_EnergyAxisConfig o.energy]
      exact rtNd_EnergyAxisConfig o.energy hoenergy)
  have g1 := getField_overlay_nested
    (merged_lookup_nested hnd (lk_nd_EnergyAxesConfig_energy_true b) (lk_nd_EnergyAxesConfig_energy_true o))
    (mergeOk_EnergyAxisConfig b.energy_true o.energy_true hbenergy_true hoenergy_true)
    (rtNd_EnergyAxisConfig b.energy_true hbenergy_true)
    (fun e2 => by
      rw [e2, smLeft_EnergyAxisConfig o.energy_true]
      exact rtNd_EnergyAxisConfig o.energy_true hoenergy_true)
  simp only [EnergyAxesConfig.fromDict]
  rw [if_pos hk]
  rw [g0]
  simp only [excBindOk]
  rw [g1]
  simp only [excBindOk]
  rfl

theorem rtNd_EnergyAxesConfig (c : EnergyAxesConfig) (h : c.Wf = true) :
    EnergyAxesConfig.fromDict (.map c.dictND) = .ok c := by
  have hm := mergeOk_EnergyAxesConfig {} c rfl h
  rw [show EnergyAxesConfig.dictND {} = [] from rfl,
    deepUpdate_nil c.dictND (ndNodup_EnergyAxesConfig c)] at hm
  rw [hm, smLeft_EnergyAxesConfig c]

theorem lk_nd_WcsConfig_skydir (c : WcsConfig) :
    lookupKey c.dictND "skydir" =
      (if c.skydir = {} then none else some (YamlValue.map (SkyCoordConfig.dictND c.skydir))) := by
  simp only [WcsConfig.dictND, ndField]
  split_ifs <;> rfl

theorem lk_nd_WcsConfig_binsize (c : WcsConfig) :
    lookupKey c.dictND "binsize" =
      (if c.binsize = ⟨"0.1", "deg"⟩ then none else some (AngleType.encode c.binsize)) := by
  simp only [WcsConfig.dictND, ndField]
  split_ifs <;> rfl

theorem lk_nd_WcsConfig_fov (c : WcsConfig) :
    lookupKey c.dictND "fov" =
      (if c.fov = {} then none else some (YamlValue.map (FovConfig.dictND c.fov))) := by
  simp only [WcsConfig.dictND, ndField]
  split_ifs <;> rfl

theorem lk_nd_WcsConfig_binsize_irf (c : WcsConfig) :
    lookupKey c.dictND "binsize_irf" =
      (if c.binsize_irf = ⟨"0.1", "deg"⟩ then none else some (AngleType.encode c.binsize_irf)) := by
  simp only [WcsConfig.dictND, ndField]
  split_ifs <;> rfl

theorem lk_nd_WcsConfig_margin_irf (c : WcsConfig) :
    lookupKey c.dictND "margin_irf" =
      (if c.margin_irf = ⟨"0.1", "deg"⟩ then none else some (AngleType.encode c.margin_irf)) := by
  simp only [WcsConfig.dictND, ndField]
  split_ifs <;> rfl

theorem ndNodup_WcsConfig (c : WcsConfig) : keyNodup c.dictND := by
  simp only [WcsConfig.dictND, ndField, keyNodup]
  split_ifs <;> simp

theorem ndAllowed_WcsConfig (c : WcsConfig) :
    keysAllowed c.dictND WcsConfig.keys = true := by
  simp only [WcsConfig.dictND, ndField, keysAllowed, WcsConfig.keys]
  split_ifs <;> simp

theorem smLeft_WcsConfig (o : WcsConfig) : WcsConfig.specMerge {} o = o := by
  obtain ⟨x0, x1, x2, x3, x4⟩ := o
  simp only [WcsConfig.specMerge, WcsConfig.mk.injEq]
  refine ⟨?_, ?_, ?_, ?_, ?_⟩ <;> (try split_ifs) <;> simp_all [smLeft_FovConfig, smLeft_SkyCoordConfig]

theorem rtFull_WcsConfig (c : WcsConfig) (h : c.Wf = true) :
    WcsConfig.fromDict c.toDict = .ok c := by
  simp only [WcsConfig.Wf, Bool.and_eq_true] at h
  obtain ⟨⟨⟨⟨hskydir, hbinsize⟩, hfov⟩, hbinsize_irf⟩, hmargin_irf⟩ := h
  have hk : keysAllowed c.toPairs WcsConfig.keys = true := rfl
  have l0 : lookupKey c.toPairs "skydir" = some (SkyCoordConfig.toDict c.skydir) := rfl
  have l1 : lookupKey c.toPairs "binsize" = some (AngleType.encode c.binsize) := rfl
  have l2 : lookupKey c.toPairs "fov" = some (FovConfig.toDict c.fov) := rfl
  have l3 : lookupKey c.toPairs "binsize_irf" = some (AngleType.encode c.binsize_irf) := rfl
  have l4 : lookupKey c.toPairs "margin_irf" = some (AngleType.encode c.margin_irf) := rfl
  show WcsConfig.fromDict (.map c.toPairs) = .ok c
  simp only [WcsConfig.fromDict]
  rw [if_pos hk]
  rw [getField_some l0, rtFull_SkyCoordConfig c.skydir hskydir]
  simp only [excBindOk]
  rw [getField_some l1, angleType_rt c.binsize hbinsize]
  simp only [excBindOk]
  rw [getField_some l2, rtFull_FovConfig c.fov hfov]
  simp only [excBindOk]
  rw [getField_some l3, angleType_rt c.binsize_irf hbinsize_irf]
  simp only [excBindOk]
  rw [getField_some l4, angleType_rt c.margin_irf hmargin_irf]
  simp only [excBindOk]

theorem mergeOk_WcsConfig (b o : WcsConfig) (hb : b.Wf = true) (ho : o.Wf = true) :
    WcsConfig.fromDict (.map (deepUpdate b.dictND o.dictND)) = .ok (b.specMerge o) := by
  simp only [WcsConfig.Wf, Bool.and_eq_true] at hb ho
  obtain ⟨⟨⟨⟨hbskydir, hbbinsize⟩, hbfov⟩, hbbinsize_irf⟩, hbmargin_irf⟩ := hb
  obtain ⟨⟨⟨⟨hoskydir, hobinsize⟩, hofov⟩, hobinsize_irf⟩, homargin_irf⟩ := ho
  have hnd := ndNodup_WcsConfig o
  have hk : keysAllowed (deepUpdate b.dictND o.dictND) WcsConfig.keys = true := by
    rw [keysAllowed_eq_true]
    exact deepUpdate_keys o.dictND b.dictND
      (keysAllowed_eq_true.mp (ndAllowed_WcsConfig b))
      (keysAllowed_eq_true.mp (ndAllowed_WcsConfig o))
  have g0 := getField_overlay_nested
    (merged_lookup_nested hnd (lk_nd_WcsConfig_skydir b) (lk_nd_WcsConfig_skydir o))
    (mergeOk_SkyCoordConfig b.skydir o.skydir hbskydir hoskydir)
    (rtNd_SkyCoordConfig b.skydir hbskydir)
    (fun e2 => by
      rw [e2, smLeft_SkyCoordConfig o.skydir]
      exact rtNd_SkyCoordConfig o.skydir hoskydir)
  have g1 := getField_overlay_leaf
    (merged_lookup_leaf hnd (lk_nd_WcsConfig_binsize b) (lk_nd_WcsConfig_binsize o) (fun x => ne_map_angle x))
    (angleType_rt b.binsize hbbinsize) (angleType_rt o.binsize hobinsize)
  have g2 := getField_overlay_nested
    (merged_lookup_nested hnd (lk_nd_WcsConfig_fov b) (lk_nd_WcsConfig_fov o))
    (mergeOk_FovConfig b.fov o.fov hbfov hofov)
    (rtNd_FovConfig b.fov hbfov)
    (fun e2 => by
      rw [e2, smLeft_FovConfig o.fov]
      exact rtNd_FovConfig o.fov hofov)
  have g3 := getField_overlay_leaf
    (merged_lookup_leaf hnd (lk_nd_WcsConfig_binsize_irf b) (lk_nd_WcsConfig_binsize_irf o) (fun x => ne_map_angle x))
    (angleType_rt b.binsize_irf hbbinsize_irf) (angleType_rt o.binsize_irf hobinsize_irf)
  have g4 := getField_overlay_leaf
    (merged_lookup_leaf hnd (lk_nd_WcsConfig_margin_irf b) (lk_nd_WcsConfig_margin_irf o) (fun x => ne_map_angle x))
    (angleType_rt b.margin_irf hbmargin_irf) (angleType_rt o.margin_irf homargin_irf)
  simp only [WcsConfig.fromDict]
  rw [if_pos hk]
  rw [g0]
  simp only [excBindOk]
  rw [g1]
  simp only [excBindOk]
  rw [g2]
  simp only [excBindOk]
  rw [g3]
  simp only [excBindOk]
  rw [g4]
  simp only [excBindOk]
  rfl

theorem rtNd_WcsConfig (c : WcsConfig) (h : c.Wf = true) :
    WcsConfig.fromDict (.map c.dictND) = .ok c := by
  have hm := mergeOk_WcsConfig {} c rfl h
  rw [show WcsConfig.dictND {} = [] from rfl,
    deepUpdate_nil c.dictND (ndNodup_WcsConfig c)] at hm
  rw [hm, smLeft_WcsConfig c]

theorem lk_nd_GeomConfig_wcs (c : GeomConfig) :
    lookupKey c.dictND "wcs" =
      (if c.wcs = {} then none else some (YamlValue.map (WcsConfig.dictND c.wcs))) := by
  simp only [GeomConfig.dictND, ndField]
  split_ifs <;> rfl

theorem lk_nd_GeomConfig_selection (c : GeomConfig) :
    lookupKey c.dictND "selection" =
      (if c.selection = {} then none else some (YamlValue.map (SelectionConfig.dictND c.selection))) := by
  simp only [GeomConfig.dictND, ndField]
  split_ifs <;> rfl

theorem lk_nd_GeomConfig_axes (c : GeomConfig) :
    lookupKey c.dictND "axes" =
      (if c.axes = {} then none else some (YamlValue.map (EnergyAxesConfig.dictND c.axes))) := by
  simp only [GeomConfig.dictND, ndField]
  split_ifs <;> rfl

theorem ndNodup_GeomConfig (c : GeomConfig) : keyNodup c.dictND := by
  simp only [GeomConfig.dictND, ndField, keyNodup]
  split_ifs <;> simp

theorem ndAllowed_GeomConfig (c : GeomConfig) :
    keysAllowed c.dictND GeomConfig.keys = true := by
  simp only [GeomConfig.dictND, ndField, keysAllowed, GeomConfig.keys]
  split_ifs <;> simp

theorem smLeft_GeomConfig (o : GeomConfig) : GeomConfig.specMerge {} o = o := by
  obtain ⟨x0, x1, x2⟩ := o
  simp only [GeomConfig.specMerge, GeomConfig.mk.injEq]
  refine ⟨?_, ?_, ?_⟩ <;> (try split_ifs) <;> simp_all [smLeft_EnergyAxesConfig, smLeft_SelectionConfig, smLeft_WcsConfig]

theorem rtFull_GeomConfig (c : GeomConfig) (h : c.Wf = true) :
    GeomConfig.fromDict c.toDict = .ok c := by
  simp only [GeomConfig.Wf, Bool.and_eq_true] at h
  obtain ⟨⟨hwcs, hselection⟩, haxes⟩ := h
  have hk : keysAllowed c.toPairs GeomConfig.keys = true := rfl
  have l0 : lookupKey c.toPairs "wcs" = some (WcsConfig.toDict c.wcs) := rfl
  have l1 : lookupKey c.toPairs "selection" = some (SelectionConfig.toDict c.selection) := rfl
  have l2 : lookupKey c.toPairs "axes" = some (EnergyAxesConfig.toDict c.axes) := rfl
  show GeomConfig.fromDict (.map c.toPairs) = .ok c
  simp only [GeomConfig.fromDict]
  rw [if_pos hk]
  rw [getField_some l0, rtFull_WcsConfig c.wcs hwcs]
  simp only [excBindOk]
  rw [getField_some l1, rtFull_SelectionConfig c.selection hselection]
  simp only [excBindOk]
  rw [getField_some l2, rtFull_EnergyAxesConfig c.axes haxes]
  simp only [excBindOk]

theorem mergeOk_GeomConfig (b o : GeomConfig) (hb : b.Wf = true) (ho : o.Wf = true) :
    GeomConfig.fromDict (.map (deepUpdate b.dictND o.dictND)) = .ok (b.specMerge o) := by
  simp only [GeomConfig.Wf, Bool.and_eq_true] at hb ho
  obtain ⟨⟨hbwcs, hbselection⟩, hbaxes⟩ := hb
  obtain ⟨⟨howcs, hoselection⟩, hoaxes⟩ := ho
  have hnd := ndNodup_GeomConfig o
  have hk : keysAllowed (deepUpdate b.dictND o.dictND) GeomConfig.keys = true := by
    rw [keysAllowed_eq_true]
    exact deepUpdate_keys o.dictND b.dictND
      (keysAllowed_eq_true.mp (ndAllowed_GeomConfig b))
      (keysAllowed_eq_true.mp (ndAllowed_GeomConfig o))
  have g0 := getField_overlay_nested
    (merged_lookup_nested hnd (lk_nd_GeomConfig_wcs b) (lk_nd_GeomConfig_wcs o))
    (mergeOk_WcsConfig b.wcs o.wcs hbwcs howcs)
    (rtNd_WcsConfig b.wcs hbwcs)
    (fun e2 => by
      rw [e2, smLeft_WcsConfig o.wcs]
      exact rtNd_WcsConfig o.wcs howcs)
  have g1 := getField_overlay_nested
    (merged_lookup_nested hnd (lk_nd_GeomConfig_selection b) (lk_nd_GeomConfig_selection o))
    (mergeOk_SelectionConfig b.selection o.selection hbselection hoselection)
    (rtNd_SelectionConfig b.selection hbselection)
    (fun e2 => by
      rw [e2, smLeft_SelectionConfig o.selection]
      exact rtNd_SelectionConfig o.selection hoselection)
  have g2 := getField_overlay_nested
    (merged_lookup_nested hnd (lk_nd_GeomConfig_axes b) (lk_nd_GeomConfig_axes o))
    (mergeOk_EnergyAxesConfig b.axes o.axes hbaxes hoaxes)
    (rtNd_EnergyAxesConfig b.axes hbaxes)
    (fun e2 => by
      rw [e2, smLeft_EnergyAxesConfig o.axes]
      exact rtNd_EnergyAxesConfig o.axes hoaxes)
  simp only [GeomConfig.fromDict]
  rw [if_pos hk]
  rw [g0]
  simp only [excBindOk]
  rw [g1]
  simp only [excBindOk]
  rw [g2]
  simp only [excBindOk]
  rfl

theorem rtNd_GeomConfig (c : GeomConfig) (h : c.Wf = true) :
    GeomConfig.fromDict (.map c.dictND) = .ok c := by
  have hm := mergeOk_GeomConfig {} c rfl h
  rw [show GeomConfig.dictND {} = [] from rfl,
    deepUpdate_nil c.dictND (ndNodup_GeomConfig c)] at hm
  rw [hm, smLeft_GeomConfig c]

theorem lk_nd_DatasetsConfig_type (c : DatasetsConfig) :
    lookupKey c.dictND "type" =
      (if c.type = ReductionTypeEnum.spectrum then none else some (ReductionTypeEnum.encode c.type)) := by
  simp only [DatasetsConfig.dictND, ndField]
  split_ifs <;> rfl

theorem lk_nd_DatasetsConfig_stack (c : DatasetsConfig) :
    lookupKey c.dictND "stack" =
      (if c.stack = true then none else some (encodeBool c.stack)) := by
  simp only [DatasetsConfig.dictND, ndField]
  split_ifs <;> rfl

theorem lk_nd_DatasetsConfig_geom (c : DatasetsConfig) :
    lookupKey c.dictND "geom" =
      (if c.geom = {} then none else some (YamlValue.map (GeomConfig.dictND c.geom))) := by
  simp only [DatasetsConfig.dictND, ndField]
  split_ifs <;> rfl

theorem lk_nd_DatasetsConfig_map_selection (c : DatasetsConfig) :
    lookupKey c.dictND "map_selection" =
      (if c.map_selection = availableSelection then none else some (encodeList MapSelectionEnum.encode c.map_selection)) := by
  simp only [DatasetsConfig.dictND, ndField]
  split_ifs <;> rfl

theorem lk_nd_DatasetsConfig_background (c : DatasetsConfig) :
    lookupKey c.dictND "background" =
      (if c.background = {} then none else some (YamlValue.map (BackgroundConfig.dictND c.background))) := by
  simp only [DatasetsConfig.dictND, ndField]
  split_ifs <;> rfl

theorem lk_nd_DatasetsConfig_on_region (c : DatasetsConfig) :
    lookupKey c.dictND "on_region" =
      (if c.on_region = {} then none else some (YamlValue.map (SpatialCircleConfig.dictND c.on_region))) := by
  simp only [DatasetsConfig.dictND, ndField]
  split_ifs <;> rfl

theorem lk_nd_DatasetsConfig_containment_correction (c : DatasetsConfig) :
    lookupKey c.dictND "containment_correction" =
      (if c.containment_correction = true then none else some (encodeBool c.containment_correction)) := by
  simp only [DatasetsConfig.dictND, ndField]
  split_ifs <;> rfl

theorem ndNodup_DatasetsConfig (c : DatasetsConfig) : keyNodup c.dictND := by
  simp only [DatasetsConfig.dictND, ndField, keyNodup]
  split_ifs <;> simp

theorem ndAllowed_DatasetsConfig (c : DatasetsConfig) :
    keysAllowed c.dictND DatasetsConfig.keys = true := by
  simp only [DatasetsConfig.dictND, ndField, keysAllowed, DatasetsConfig.keys]
  split_ifs <;> simp

theorem smLeft_DatasetsConfig (o : DatasetsConfig) : DatasetsConfig.specMerge {} o = o := by
  obtain ⟨x0, x1, x2, x3, x4, x5, x6⟩ := o
  simp only [DatasetsConfig.specMerge, DatasetsConfig.mk.injEq]
  refine ⟨?_, ?_, ?_, ?_, ?_, ?_, ?_⟩ <;> (try split_ifs) <;> simp_all [smLeft_BackgroundConfig, smLeft_GeomConfig, smLeft_SpatialCircleConfig]

theorem rtFull_DatasetsConfig (c : DatasetsConfig) (h : c.Wf = true) :
    DatasetsConfig.fromDict c.toDict = .ok c := by
  simp only [DatasetsConfig.Wf, Bool.and_eq_true] at h
  obtain ⟨⟨hgeom, hbackground⟩, hon_region⟩ := h
  have hk : keysAllowed c.toPairs DatasetsConfig.keys = true := rfl
  have l0 : lookupKey c.toPairs "type" = some (ReductionTypeEnum.encode c.type) := rfl
  have l1 : lookupKey c.toPairs "stack" = some (encodeBool c.stack) := rfl
  have l2 : lookupKey c.toPairs "geom" = some (GeomConfig.toDict c.geom) := rfl
  have l3 : lookupKey c.toPairs "map_selection" = some (encodeList MapSelectionEnum.encode c.map_selection) := rfl
  have l4 : lookupKey c.toPairs "background" = some (BackgroundConfig.toDict c.background) := rfl
  have l5 : lookupKey c.toPairs "on_region" = some (SpatialCircleConfig.toDict c.on_region) := rfl
  have l6 : lookupKey c.toPairs "containment_correction" = some (encodeBool c.containment_correction) := rfl
  show DatasetsConfig.fromDict (.map c.toPairs) = .ok c
  simp only [DatasetsConfig.fromDict]
  rw [if_pos hk]
  rw [getField_some l0, reductionTypeEnum_rt c.type]
  simp only [excBindOk]
  rw [getField_some l1, bool_rt c.stack]
  simp only [excBindOk]
  rw [getField_some l2, rtFull_GeomConfig c.geom hgeom]
  simp only [excBindOk]
  rw [getField_some l3, list_msel_rt c.map_selection]
  simp only [excBindOk]
  rw [getField_some l4, rtFull_BackgroundConfig c.background hbackground]
  simp only [excBindOk]
  rw [getField_some l5, rtFull_SpatialCircleConfig c.on_region hon_region]
  simp only [excBindOk]
  rw [getField_some l6, bool_rt c.containment_correction]
  simp only [excBindOk]

theorem mergeOk_DatasetsConfig (b o : DatasetsConfig) (hb : b.Wf = true) (ho : o.Wf = true) :
    DatasetsConfig.fromDict (.map (deepUpdate b.dictND o.dictND)) = .ok (b.specMerge o) := by
  simp only [DatasetsConfig.Wf, Bool.and_eq_true] at hb ho
  obtain ⟨⟨hbgeom, hbbackground⟩, hbon_region⟩ := hb
  obtain ⟨⟨hogeom, hobackground⟩, hoon_region⟩ := ho
  have hnd := ndNodup_DatasetsConfig o
  have hk : keysAllowed (deepUpdate b.dictND o.dictND) DatasetsConfig.keys = true := by
    rw [keysAllowed_eq_true]
    exact deepUpdate_keys o.dictND b.dictND
      (keysAllowed_eq_true.mp (ndAllowed_DatasetsConfig b))
      (keysAllowed_eq_true.mp (ndAllowed_DatasetsConfig o))
  have g0 := getField_overlay_leaf
    (merged_lookup_leaf hnd (lk_nd_DatasetsConfig_type b) (lk_nd_DatasetsConfig_type o) (fun x => ne_map_rte x))
    (reductionTypeEnum_rt b.type) (reductionTypeEnum_rt o.type)
  have g1 := getField_overlay_leaf
    (merged_lookup_leaf hnd (lk_nd_DatasetsConfig_stack b) (lk_nd_DatasetsConfig_stack o) (fun x => ne_map_bool x))
    (bool_rt b.stack) (bool_rt o.stack)
  have g2 := getField_overlay_nested
    (merged_lookup_nested hnd (lk_nd_DatasetsConfig_geom b) (lk_nd_DatasetsConfig_geom o))
    (mergeOk_GeomConfig b.geom o.geom hbgeom hogeom)
    (rtNd_GeomConfig b.geom hbgeom)
    (fun e2 => by
      rw [e2, smLeft_GeomConfig o.geom]
      exact rtNd_GeomConfig o.geom hogeom)
  have g3 := getField_overlay_leaf
    (merged_lookup_leaf hnd (lk_nd_DatasetsConfig_map_selection b) (lk_nd_DatasetsConfig_map_selection o) (fun x => ne_map_list MapSelectionEnum.encode x))
    (list_msel_rt b.map_selection) (list_msel_rt o.map_selection)
  have g4 := getField_overlay_nested
    (merged_lookup_nested hnd (lk_nd_DatasetsConfig_background b) (lk_nd_DatasetsConfig_background o))
    (mergeOk_BackgroundConfig b.background o.background hbbackground hobackground)
    (rtNd_BackgroundConfig b.background hbbackground)
    (fun e2 => by
      rw [e2, smLeft_BackgroundConfig o.background]
      exact rtNd_BackgroundConfig o.background hobackground)
  have g5 := getField_overlay_nested
    (merged_lookup_nested hnd (lk_nd_DatasetsConfig_on_region b) (lk_nd_DatasetsConfig_on_region o))
    (mergeOk_SpatialCircleConfig b.on_region o.on_region hbon_region hoon_region)
    (rtNd_SpatialCircleConfig b.on_region hbon_region)
    (fun e2 => by
      rw [e2, smLeft_SpatialCircleConfig o.on_region]
      exact rtNd_SpatialCircleConfig o.on_region hoon_region)
  have g6 := getField_overlay_leaf
    (merged_lookup_leaf hnd (lk_nd_DatasetsConfig_containment_correction b) (lk_nd_DatasetsConfig_containment_correction o) (fun x => ne_map_bool x))
    (bool_rt b.containment_correction) (bool_rt o.containment_correction)
  simp only [DatasetsConfig.fromDict]
  rw [if_pos hk]
  rw [g0]
  simp only [excBindOk]
  rw [g1]
  simp only [excBindOk]
  rw [g2]
  simp only [excBindOk]
  rw [g3]
  simp only [excBindOk]
  rw [g4]
  simp only [excBindOk]
  rw [g5]
  simp only [excBindOk]
  rw [g6]
  simp only [excBindOk]
  rfl

theorem rtNd_DatasetsConfig (c : DatasetsConfig) (h : c.Wf = true) :
    DatasetsConfig.fromDict (.map c.dictND) = .ok c := by
  have hm := mergeOk_DatasetsConfig {} c rfl h
  rw [show DatasetsConfig.dictND {} = [] from rfl,
    deepUpdate_nil c.dictND (ndNodup_DatasetsConfig c)] at hm
  rw [hm, smLeft_DatasetsConfig c]

theorem lk_nd_ObservationsConfig_datastore (c : ObservationsConfig) :
    lookupKey c.dictND "datastore" =
      (if c.datastore = "$GAMMAPY_DATA/hess-dl3-dr1" then none else some (encodeStr c.datastore)) := by
  simp only [ObservationsConfig.dictND, ndField]
  split_ifs <;> rfl

theorem lk_nd_ObservationsConfig_obs_ids (c : ObservationsConfig) :
    lookupKey c.dictND "obs_ids" =
      (if c.obs_ids = [] then none else some (encodeList encodeInt c.obs_ids)) := by
  simp only [ObservationsConfig.dictND, ndField]
  split_ifs <;> rfl

theorem lk_nd_ObservationsConfig_obs_file (c : ObservationsConfig) :
    lookupKey c.dictND "obs_file" =
      (if c.obs_file = none then none else some (encodeOpt encodeStr c.obs_file)) := by
  simp only [ObservationsConfig.dictND, ndField]
  split_ifs <;> rfl

theorem lk_nd_ObservationsConfig_obs_cone (c : ObservationsConfig) :
    lookupKey c.dictND "obs_cone" =
      (if c.obs_cone = {} then none else some (YamlValue.map (SpatialCircleConfig.dictND c.obs_cone))) := by
  simp only [ObservationsConfig.dictND, ndField]
  split_ifs <;> rfl

theorem lk_nd_ObservationsConfig_obs_time (c : ObservationsConfig) :
    lookupKey c.dictND "obs_time" =
      (if c.obs_time = {} then none else some (YamlValue.map (TimeRangeConfig.dictND c.obs_time))) := by
  simp only [ObservationsConfig.dictND, ndField]
  split_ifs <;> rfl

theorem ndNodup_ObservationsConfig (c : ObservationsConfig) : keyNodup c.dictND := by
  simp only [ObservationsConfig.dictND, ndField, keyNodup]
  split_ifs <;> simp

theorem ndAllowed_ObservationsConfig (c : ObservationsConfig) :
    keysAllowed c.dictND ObservationsConfig.keys = true := by
  simp only [ObservationsConfig.dictND, ndField, keysAllowed, ObservationsConfig.keys]
  split_ifs <;> simp

theorem smLeft_ObservationsConfig (o : ObservationsConfig) : ObservationsConfig.specMerge {} o = o := by
  obtain ⟨x0, x1, x2, x3, x4⟩ := o
  simp only [ObservationsConfig.specMerge, ObservationsConfig.mk.injEq]
  refine ⟨?_, ?_, ?_, ?_, ?_⟩ <;> (try split_ifs) <;> simp_all [smLeft_SpatialCircleConfig, smLeft_TimeRangeConfig]

theorem rtFull_ObservationsConfig (c : ObservationsConfig) (h : c.Wf = true) :
    ObservationsConfig.fromDict c.toDict = .ok c := by
  simp only [ObservationsConfig.Wf, Bool.and_eq_true] at h
  obtain ⟨hobs_cone, hobs_time⟩ := h
  have hk : keysAllowed c.toPairs ObservationsConfig.keys = true := rfl
  have l0 : lookupKey c.toPairs "datastore" = some (encodeStr c.datastore) := rfl
  have l1 : lookupKey c.toPairs "obs_ids" = some (encodeList encodeInt c.obs_ids) := rfl
  have l2 : lookupKey c.toPairs "obs_file" = some (encodeOpt encodeStr c.obs_file) := rfl
  have l3 : lookupKey c.toPairs "obs_cone" = some (SpatialCircleConfig.toDict c.obs_cone) := rfl
  have l4 : lookupKey c.toPairs "obs_time" = some (TimeRangeConfig.toDict c.obs_time) := rfl
  show ObservationsConfig.fromDict (.map c.toPairs) = .ok c
  simp only [ObservationsConfig.fromDict]
  rw [if_pos hk]
  rw [getField_some l0, str_rt c.datastore]
  simp only [excBindOk]
  rw [getField_some l1, list_int_rt c.obs_ids]
  simp only [excBindOk]
  rw [getField_some l2, opt_str_rt c.obs_file]
  simp only [excBindOk]
  rw [getField_some l3, rtFull_SpatialCircleConfig c.obs_cone hobs_cone]
  simp only [excBindOk]
  rw [getField_some l4, rtFull_TimeRangeConfig c.obs_time hobs_time]
  simp only [excBindOk]

theorem mergeOk_ObservationsConfig (b o : ObservationsConfig) (hb : b.Wf = true) (ho : o.Wf = true) :
    ObservationsConfig.fromDict (.map (deepUpdate b.dictND o.dictND)) = .ok (b.specMerge o) := by
  simp only [ObservationsConfig.Wf, Bool.and_eq_true] at hb ho
  obtain ⟨hbobs_cone, hbobs_time⟩ := hb
  obtain ⟨hoobs_cone, hoobs_time⟩ := ho
  have hnd := ndNodup_ObservationsConfig o
  have hk : keysAllowed (deepUpdate b.dictND o.dictND) ObservationsConfig.keys = true := by
    rw [keysAllowed_eq_true]
    exact deepUpdate_keys o.dictND b.dictND
      (keysAllowed_eq_true.mp (ndAllowed_ObservationsConfig b))
      (keysAllowed_eq_true.mp (ndAllowed_ObservationsConfig o))
  have g0 := getField_overlay_leaf
    (merged_lookup_leaf hnd (lk_nd_ObservationsConfig_datastore b) (lk_nd_ObservationsConfig_datastore o) (fun x => ne_map_str x))
    (str_rt b.datastore) (str_rt o.datastore)
  have g1 := getField_overlay_leaf
    (merged_lookup_leaf hnd (lk_nd_ObservationsConfig_obs_ids b) (lk_nd_ObservationsConfig_obs_ids o) (fun x => ne_map_list encodeInt x))
    (list_int_rt b.obs_ids) (list_int_rt o.obs_ids)
  have g2 := getField_overlay_leaf
    (merged_lookup_leaf hnd (lk_nd_ObservationsConfig_obs_file b) (lk_nd_ObservationsConfig_obs_file o) (fun x => ne_map_opt_str x))
    (opt_str_rt b.obs_file) (opt_str_rt o.obs_file)
  have g3 := getField_overlay_nested
    (merged_lookup_nested hnd (lk_nd_ObservationsConfig_obs_cone b) (lk_nd_ObservationsConfig_obs_cone o))
    (mergeOk_SpatialCircleConfig b.obs_cone o.obs_cone hbobs_cone hoobs_cone)
    (rtNd_SpatialCircleConfig b.obs_cone hbobs_cone)
    (fun e2 => by
      rw [e2, smLeft_SpatialCircleConfig o.obs_cone]
      exact rtNd_SpatialCircleConfig o.obs_cone hoobs_cone)
  have g4 := getField_overlay_nested
    (merged_lookup_nested hnd (lk_nd_ObservationsConfig_obs_time b) (lk_nd_ObservationsConfig_obs_time o))
    (mergeOk_TimeRangeConfig b.obs_time o.obs_time hbobs_time hoobs_time)
    (rtNd_TimeRangeConfig b.obs_time hbobs_time)
    (fun e2 => by
      rw [e2, smLeft_TimeRangeConfig o.obs_time]
      exact rtNd_TimeRangeConfig o.obs_time hoobs_time)
  simp only [ObservationsConfig.fromDict]
  rw [if_pos hk]
  rw [g0]
  simp only [excBindOk]
  rw [g1]
  simp only [excBindOk]
  rw [g2]
  simp only [excBindOk]
  rw [g3]
  simp only [excBindOk]
  rw [g4]
  simp only [excBindOk]
  rfl

theorem rtNd_ObservationsConfig (c : ObservationsConfig) (h : c.Wf = true) :
    ObservationsConfig.fromDict (.map c.dictND) = .ok c := by
  have hm := mergeOk_ObservationsConfig {} c rfl h
  rw [show ObservationsConfig.dictND {} = [] from rfl,
    deepUpdate_nil c.dictND (ndNodup_ObservationsConfig c)] at hm
  rw [hm, smLeft_ObservationsConfig c]

theorem lk_nd_GeneralConfig_log (c : GeneralConfig) :
    lookupKey c.dictND "log" =
      (if c.log = {} then none else some (YamlValue.map (LogConfig.dictND c.log))) := by
  simp only [GeneralConfig.dictND, ndField]
  split_ifs <;> rfl

theorem lk_nd_GeneralConfig_outdir (c : GeneralConfig) :
    lookupKey c.dictND "outdir" =
      (if c.outdir = "." then none else some (encodeStr c.outdir)) := by
  simp only [GeneralConfig.dictND, ndField]
  split_ifs <;> rfl

theorem ndNodup_GeneralConfig (c : GeneralConfig) : keyNodup c.dictND := by
  simp only [GeneralConfig.dictND, ndField, keyNodup]
  split_ifs <;> simp

theorem ndAllowed_GeneralConfig (c : GeneralConfig) :
    keysAllowed c.dictND GeneralConfig.keys = true := by
  simp only [GeneralConfig.dictND, ndField, keysAllowed, GeneralConfig.keys]
  split_ifs <;> simp

theorem smLeft_GeneralConfig (o : GeneralConfig) : GeneralConfig.specMerge {} o = o := by
  obtain ⟨x0, x1⟩ := o
  simp only [GeneralConfig.specMerge, GeneralConfig.mk.injEq]
  refine ⟨?_, ?_⟩ <;> (try split_ifs) <;> simp_all [smLeft_LogConfig]

theorem rtFull_GeneralConfig (c : GeneralConfig) (h : c.Wf = true) :
    GeneralConfig.fromDict c.toDict = .ok c := by
  simp only [GeneralConfig.Wf] at h
  have hlog := h
  have hk : keysAllowed c.toPairs GeneralConfig.keys = true := rfl
  have l0 : lookupKey c.toPairs "log" = some (LogConfig.toDict c.log) := rfl
  have l1 : lookupKey c.toPairs "outdir" = some (encodeStr c.outdir) := rfl
  show GeneralConfig.fromDict (.map c.toPairs) = .ok c
  simp only [GeneralConfig.fromDict]
  rw [if_pos hk]
  rw [getField_some l0, rtFull_LogConfig c.log hlog]
  simp only [excBindOk]
  rw [getField_some l1, str_rt c.outdir]
  simp only [excBindOk]

theorem mergeOk_GeneralConfig (b o : GeneralConfig) (hb : b.Wf = true) (ho : o.Wf = true) :
    GeneralConfig.fromDict (.map (deepUpdate b.dictND o.dictND)) = .ok (b.specMerge o) := by
  simp only [GeneralConfig.Wf] at hb ho
  have hblog := hb
  have holog := ho
  have hnd := ndNodup_GeneralConfig o
  have hk : keysAllowed (deepUpdate b.dictND o.dictND) GeneralConfig.keys = true := by
    rw [keysAllowed_eq_true]
    exact deepUpdate_keys o.dictND b.dictND
      (keysAllowed_eq_true.mp (ndAllowed_GeneralConfig b))
      (keysAllowed_eq_true.mp (ndAllowed_GeneralConfig o))
  have g0 := getField_overlay_nested
    (merged_lookup_nested hnd (lk_nd_GeneralConfig_log b) (lk_nd_GeneralConfig_log o))
    (mergeOk_LogConfig b.log o.log hblog holog)
    (rtNd_LogConfig b.log hblog)
    (fun e2 => by
      rw [e2, smLeft_LogConfig o.log]
      exact rtNd_LogConfig o.log holog)
  have g1 := getField_overlay_leaf
    (merged_lookup_leaf hnd (lk_nd_GeneralConfig_outdir b) (lk_nd_GeneralConfig_outdir o) (fun x => ne_map_str x))
    (str_rt b.outdir) (str_rt o.outdir)
  simp only [GeneralConfig.fromDict]
  rw [if_pos hk]
  rw [g0]
  simp only [excBindOk]
  rw [g1]
  simp only [excBindOk]
  rfl

theorem rtNd_GeneralConfig (c : GeneralConfig) (h : c.Wf = true) :
    GeneralConfig.fromDict (.map c.dictND) = .ok c := by
  have hm := mergeOk_GeneralConfig {} c rfl h
  rw [show GeneralConfig.dictND {} = [] from rfl,
    deepUpdate_nil c.dictND (ndNodup_GeneralConfig c)] at hm
  rw [hm, smLeft_GeneralConfig c]

theorem lk_nd_AnalysisConfig_general (c : AnalysisConfig) :
    lookupKey c.dictND "general" =
      (if c.general = {} then none else some (YamlValue.map (GeneralConfig.dictND c.general))) := by
  simp only [AnalysisConfig.dictND, ndField]
  split_ifs <;> rfl

theorem lk_nd_AnalysisConfig_observations (c : AnalysisConfig) :
    lookupKey c.dictND "observations" =
      (if c.observations = {} then none else some (YamlValue.map (ObservationsConfig.dictND c.observations))) := by
  simp only [AnalysisConfig.dictND, ndField]
  split_ifs <;> rfl

theorem lk_nd_AnalysisConfig_datasets (c : AnalysisConfig) :
    lookupKey c.dictND "datasets" =
      (if c.datasets = {} then none else some (YamlValue.map (DatasetsConfig.dictND c.datasets))) := by
  simp only [AnalysisConfig.dictND, ndField]
  split_ifs <;> rfl

theorem lk_nd_AnalysisConfig_fit (c : AnalysisConfig) :
    lookupKey c.dictND "fit" =
      (if c.fit = {} then none else some (YamlValue.map (FitConfig.dictND c.fit))) := by
  simp only [AnalysisConfig.dictND, ndField]
  split_ifs <;> rfl

theorem lk_nd_AnalysisConfig_flux_points (c : AnalysisConfig) :
    lookupKey c.dictND "flux_points" =
      (if c.flux_points = {} then none else some (YamlValue.map (FluxPointsConfig.dictND c.flux_points))) := by
  simp only [AnalysisConfig.dictND, ndField]
  split_ifs <;> rfl

theorem ndNodup_AnalysisConfig (c : AnalysisConfig) : keyNodup c.dictND := by
  simp only [AnalysisConfig.dictND, ndField, keyNodup]
  split_ifs <;> simp

theorem ndAllowed_AnalysisConfig (c : AnalysisConfig) :
    keysAllowed c.dictND AnalysisConfig.keys = true := by
  simp only [AnalysisConfig.dictND, ndField, keysAllowed, AnalysisConfig.keys]
  split_ifs <;> simp

theorem smLeft_AnalysisConfig (o : AnalysisConfig) : AnalysisConfig.specMerge {} o = o := by
  obtain ⟨x0, x1, x2, x3, x4⟩ := o
  simp only [AnalysisConfig.specMerge, AnalysisConfig.mk.injEq]
  refine ⟨?_, ?_, ?_, ?_, ?_⟩ <;> (try split_ifs) <;> simp_all [smLeft_DatasetsConfig, smLeft_FitConfig, smLeft_FluxPointsConfig, smLeft_GeneralConfig, smLeft_ObservationsConfig]

theorem rtFull_AnalysisConfig (c : AnalysisConfig) (h : c.Wf = true) :
    AnalysisConfig.fromDict c.toDict = .ok c := by
  simp only [AnalysisConfig.Wf, Bool.and_eq_true] at h
  obtain ⟨⟨⟨⟨hgeneral, hobservations⟩, hdatasets⟩, hfit⟩, hflux_points⟩ := h
  have hk : keysAllowed c.toPairs AnalysisConfig.keys = true := rfl
  have l0 : lookupKey c.toPairs "general" = some (GeneralConfig.toDict c.general) := rfl
  have l1 : lookupKey c.toPairs "observations" = some (ObservationsConfig.toDict c.observations) := rfl
  have l2 : lookupKey c.toPairs "datasets" = some (DatasetsConfig.toDict c.datasets) := rfl
  have l3 : lookupKey c.toPairs "fit" = some (FitConfig.toDict c.fit) := rfl
  have l4 : lookupKey c.toPairs "flux_points" = some (FluxPointsConfig.toDict c.flux_points) := rfl
  show AnalysisConfig.fromDict (.map c.toPairs) = .ok c
  simp only [AnalysisConfig.fromDict]
  rw [if_pos hk]
  rw [getField_some l0, rtFull_GeneralConfig c.general hgeneral]
  simp only [excBindOk]
  rw [getField_some l1, rtFull_ObservationsConfig c.observations hobservations]
  simp only [excBindOk]
  rw [getField_some l2, rtFull_DatasetsConfig c.datasets hdatasets]
  simp only [excBindOk]
  rw [getField_some l3, rtFull_FitConfig c.fit hfit]
  simp only [excBindOk]
  rw [getField_some l4, rtFull_FluxPointsConfig c.flux_points hflux_points]
  simp only [excBindOk]

theorem mergeOk_AnalysisConfig (b o : AnalysisConfig) (hb : b.Wf = true) (ho : o.Wf = true) :
    AnalysisConfig.fromDict (.map (deepUpdate b.dictND o.dictND)) = .ok (b.specMerge o) := by
  simp only [AnalysisConfig.Wf, Bool.and_eq_true] at hb ho
  obtain ⟨⟨⟨⟨hbgeneral, hbobservations⟩, hbdatasets⟩, hbfit⟩, hbflux_points⟩ := hb
  obtain ⟨⟨⟨⟨hogeneral, hoobservations⟩, hodatasets⟩, hofit⟩, hoflux_points⟩ := ho
  have hnd := ndNodup_AnalysisConfig o
  have hk : keysAllowed (deepUpdate b.dictND o.dictND) AnalysisConfig.keys = true := by
    rw [keysAllowed_eq_true]
    exact deepUpdate_keys o.dictND b.dictND
      (keysAllowed_eq_true.mp (ndAllowed_AnalysisConfig b))
      (keysAllowed_eq_true.mp (ndAllowed_AnalysisConfig o))
  have g0 := getField_overlay_nested
    (merged_lookup_nested hnd (lk_nd_AnalysisConfig_general b) (lk_nd_AnalysisConfig_general o))
    (mergeOk_GeneralConfig b.general o.general hbgeneral hogeneral)
    (rtNd_GeneralConfig b.general hbgeneral)
    (fun e2 => by
      rw [e2, smLeft_GeneralConfig o.general]
      exact rtNd_GeneralConfig o.general hogeneral)
  have g1 := getField_overlay_nested
    (merged_lookup_nested hnd (lk_nd_AnalysisConfig_observations b) (lk_nd_AnalysisConfig_observations o))
    (mergeOk_ObservationsConfig b.observations o.observations hbobservations hoobservations)
    (rtNd_ObservationsConfig b.observations hbobservations)
    (fun e2 => by
      rw [e2, smLeft_ObservationsConfig o.observations]
      exact rtNd_ObservationsConfig o.observations hoobservations)
  have g2 := getField_overlay_nested
    (merged_lookup_nested hnd (lk_nd_AnalysisConfig_datasets b) (lk_nd_AnalysisConfig_datasets o))
    (mergeOk_DatasetsConfig b.datasets o.datasets hbdatasets hodatasets)
    (rtNd_DatasetsConfig b.datasets hbdatasets)
    (fun e2 => by
      rw [e2, smLeft_DatasetsConfig o.datasets]
      exact rtNd_DatasetsConfig o.datasets hodatasets)
  have g3 := getField_overlay_nested
    (merged_lookup_nested hnd (lk_nd_AnalysisConfig_fit b) (lk_nd_AnalysisConfig_fit o))
    (mergeOk_FitConfig b.fit o.fit hbfit hofit)
    (rtNd_FitConfig b.fit hbfit)
    (fun e2 => by
      rw [e2, smLeft_FitConfig o.fit]
      exact rtNd_FitConfig o.fit hofit)
  have g4 := getField_overlay_nested
    (merged_lookup_nested hnd (lk_nd_AnalysisConfig_flux_points b) (lk_nd_AnalysisConfig_flux_points o))
    (mergeOk_FluxPointsConfig b.flux_points o.flux_points hbflux_points hoflux_points)
    (rtNd_FluxPointsConfig b.flux_points hbflux_points)
    (fun e2 => by
      rw [e2, smLeft_FluxPointsConfig o.flux_points]
      exact rtNd_FluxPointsConfig o.flux_points hoflux_points)
  simp only [AnalysisConfig.fromDict]
  rw [if_pos hk]
  rw [g0]
  simp only [excBindOk]
  rw [g1]
  simp only [excBindOk]
  rw [g2]
  simp only [excBindOk]
  rw [g3]
  simp only [excBindOk]
  rw [g4]
  simp only [excBindOk]
  rfl

theorem rtNd_AnalysisConfig (c : AnalysisConfig) (h : c.Wf = true) :
    AnalysisConfig.fromDict (.map c.dictND) = .ok c := by
  have hm := mergeOk_AnalysisConfig {} c rfl h
  rw [show AnalysisConfig.dictND {} = [] from rfl,
    deepUpdate_nil c.dictND (ndNodup_AnalysisConfig c)] at hm
  rw [hm, smLeft_AnalysisConfig c]

/-- Claim C1: for every base `AnalysisConfig` and every override — given as
a YAML string (here: its parsed mapping), a mapping, or an
`AnalysisConfig` — `update` returns a new configuration in which each
field explicitly set in the override (i.e. whose value differs from its
schema default) overlays the base's corresponding field recursively, while
every override field left at its default leaves the base's value (default
or not) unchanged: the result is exactly `specMerge`, the field-wise
recursive overlay written from the spec's words. -/
theorem AnalysisConfig.update_overlays (b o : AnalysisConfig)
    (hb : b.Wf = true) (ho : o.Wf = true) (arg : UpdateArg)
    (h : arg.normalize = .ok (some o)) :
    b.update arg = .ok (some (b.specMerge o)) := by
  cases arg with
  | nullArg => exact absurd h (by simp [UpdateArg.normalize])
  | strArg kvs =>
    simp only [UpdateArg.normalize] at h
    cases hfd : AnalysisConfig.fromDict (.map kvs) with
    | error e =>
      rw [hfd, excMapErr] at h
      exact absurd h (by simp)
    | ok cfg =>
      rw [hfd, excMapOk] at h
      simp only [Except.ok.injEq, Option.some.injEq] at h
      rw [← h]
      simp only [AnalysisConfig.update]
      rw [hfd]
      simp only [excBindOk]
      rw [mergeOk_AnalysisConfig b cfg hb (by rw [h]; exact ho)]
      simp only [excBindOk]
  | dictArg kvs =>
    simp only [UpdateArg.normalize] at h
    cases hfd : AnalysisConfig.fromDict (.map kvs) with
    | error e =>
      rw [hfd, excMapErr] at h
      exact absurd h (by simp)
    | ok cfg =>
      rw [hfd, excMapOk] at h
      simp only [Except.ok.injEq, Option.some.injEq] at h
      rw [← h]
      simp only [AnalysisConfig.update]
      rw [hfd]
      simp only [excBindOk]
      rw [mergeOk_AnalysisConfig b cfg hb (by rw [h]; exact ho)]
      simp only [excBindOk]
  | configArg cfg =>
    simp only [UpdateArg.normalize, Except.ok.injEq, Option.some.injEq] at h
    rw [← h]
    simp only [AnalysisConfig.update]
    rw [mergeOk_AnalysisConfig b cfg hb (by rw [h]; exact ho)]
    simp only [excBindOk]

/-- Witness for C1 at the spec's particular instance: base at defaults
(`datasets.stack = True`), override a mapping setting only `datasets.type`
to "3d"; `update` succeeds with exactly the overlay, whose `datasets.type`
is cube ("3d") and whose `datasets.stack` is still `True`. -/
theorem AnalysisConfig.update_overlays_witness :
    (UpdateArg.dictArg ovDict).normalize = .ok (some ovConfig) ∧
    ({} : AnalysisConfig).Wf = true ∧ ovConfig.Wf = true ∧
    ({} : AnalysisConfig).update (.dictArg ovDict) =
      .ok (some (AnalysisConfig.specMerge {} ovConfig)) ∧
    (AnalysisConfig.specMerge {} ovConfig).datasets.type = ReductionTypeEnum.cube ∧
    (AnalysisConfig.specMerge {} ovConfig).datasets.stack = true :=
  ⟨rfl, rfl, rfl,
   AnalysisConfig.update_overlays {} ovConfig rfl rfl (.dictArg ovDict) rfl,
   rfl, rfl⟩

/-- Claim C2: for every validly constructed `AnalysisConfig` (all scalar
fields in canonical form, which is what validation produces),
`from_yaml (to_yaml c)` yields a configuration equal to `c`
field-by-field. -/
theorem AnalysisConfig.from_yaml_to_yaml (c : AnalysisConfig) (h : c.Wf = true) :
    AnalysisConfig.from_yaml c.to_yaml = .ok c :=
  rtFull_AnalysisConfig c h

/-- Witness for C2 at the default configuration. -/
theorem AnalysisConfig.from_yaml_to_yaml_witness :
    ({} : AnalysisConfig).Wf = true ∧
    AnalysisConfig.from_yaml (AnalysisConfig.to_yaml {}) = .ok ({} : AnalysisConfig) :=
  ⟨rfl, AnalysisConfig.from_yaml_to_yaml {} rfl⟩

/-- Claim C3: for every base and every override whose composite with the
base is schema-invalid (the override itself fails validation — with valid
parts the merged composite always revalidates, so this is the failing
case, e.g. an invalid enum literal for `datasets.type`), `update` raises
the validation error, and the base configuration is left unmodified: the
traced receiver after the call equals the receiver before it.  Both the
YAML-string form and the mapping form of the override are covered. -/
theorem AnalysisConfig.update_invalid (b : AnalysisConfig)
    (kvs : List (String × YamlValue)) (e : String)
    (h : AnalysisConfig.fromDict (.map kvs) = .error e) :
    b.updateTraced (.strArg kvs) = (.error e, b) ∧
    b.updateTraced (.dictArg kvs) = (.error e, b) := by
  constructor <;>
    (simp only [AnalysisConfig.updateTraced, AnalysisConfig.update]
     rw [h, excBindErr])

/-- Witness for C3: the override `datasets: {type: "2d"}` is rejected with
the enum validation error, and the (default) base traces through
unchanged, in both override forms. -/
theorem AnalysisConfig.update_invalid_witness :
    AnalysisConfig.fromDict (.map badDict) = .error badDictError ∧
    ({} : AnalysisConfig).updateTraced (.strArg badDict) = (.error badDictError, {}) ∧
    ({} : AnalysisConfig).updateTraced (.dictArg badDict) = (.error badDictError, {}) :=
  ⟨rfl, (AnalysisConfig.update_invalid {} badDict badDictError rfl).1,
   (AnalysisConfig.update_invalid {} badDict badDictError rfl).2⟩
